import Mathlib

/-!
# upb wire-format decoder (`upb_parse.c`): embedding and verified properties

The C functions of `upb_parse.c` are embedded as pure Lean functions.

* Memory is a total map from addresses to bytes (`Mem`); a `void *` cursor is
  a natural-number address.  The readers do no bounds checking in the source
  either: whatever byte lies at an address is what is read.
* Out-parameters (`*buf`, `*val`, `*offset`, `*wv`, ...) are passed in with
  their previous contents and returned with their new contents, so that "left
  unchanged" is expressible.
* `uint32_t` / `uint64_t` are naturals with explicit reduction modulo `2^32`
  / `2^64` wherever the C arithmetic can exceed the width; `size_t` is a
  natural reduced modulo `2^w`, the width `w` being a parameter.
* Signed results (`int32_t`, `int64_t`) are integers obtained from the
  two's-complement bit pattern.
-/

namespace Upb

/-! ## Basic types -/

/-- Status codes of the decoder (`upb_status_t`).  `UPB_STATUS_OK` is the
value `0` that `upb_parse_value` returns in its `default` case. -/
inductive upb_status_t
  | UPB_STATUS_OK
  | UPB_ERROR_UNTERMINATED_VARINT
  | UPB_ERROR_OVERFLOW
  | UPB_ERROR_STACK_OVERFLOW
  | UPB_ERROR_SPURIOUS_END_GROUP
  deriving DecidableEq, Repr

open upb_status_t

/-- Byte-addressed memory: the byte stored at every address. -/
abbrev Mem := Nat → Fin 256

/-- Memory holding the bytes `l` from address `0` on, and zero elsewhere. -/
def memOfList (l : List (Fin 256)) : Mem := fun i => l.getD i 0

/-- Outcome of a primitive reader `f(void **buf, T *val)`: the status and the
contents of `*buf` and `*val` after the call. -/
structure get_result where
  status : upb_status_t
  buf : Nat
  val : Nat
  deriving DecidableEq, Repr

/-- Outcome of a primitive skipper `f(void **buf)`: the status and the
contents of `*buf` after the call. -/
structure skip_result where
  status : upb_status_t
  buf : Nat
  deriving DecidableEq, Repr

/-! ## Lowest-level readers -/

/-- The `done:` label of `get_v_uint64_t`: store the cursor and recombine the
three 32-bit accumulators into the 64-bit result. -/
def get_v_uint64_t.done (ptr part0 part1 part2 : Nat) : get_result :=
  ⟨UPB_STATUS_OK, ptr, (part0 ||| ((part1 <<< 28) % 2^64) ||| ((part2 <<< 56) % 2^64)) % 2^64⟩

/-- Embedding of `get_v_uint64_t` (unrolled over ten bytes as in the source). -/
def get_v_uint64_t (mem : Mem) (buf val : Nat) : get_result :=
  let ptr := buf
  let part1 := 0
  let part2 := 0
  let b := (mem ptr).val; let ptr := ptr + 1; let part0 := b &&& 0x7F
  if b &&& 0x80 = 0 then get_v_uint64_t.done ptr part0 part1 part2 else
  let b := (mem ptr).val; let ptr := ptr + 1; let part0 := part0 ||| ((b &&& 0x7F) <<< 7)
  if b &&& 0x80 = 0 then get_v_uint64_t.done ptr part0 part1 part2 else
  let b := (mem ptr).val; let ptr := ptr + 1; let part0 := part0 ||| ((b &&& 0x7F) <<< 14)
  if b &&& 0x80 = 0 then get_v_uint64_t.done ptr part0 part1 part2 else
  let b := (mem ptr).val; let ptr := ptr + 1; let part0 := part0 ||| ((b &&& 0x7F) <<< 21)
  if b &&& 0x80 = 0 then get_v_uint64_t.done ptr part0 part1 part2 else
  let b := (mem ptr).val; let ptr := ptr + 1; let part1 := b &&& 0x7F
  if b &&& 0x80 = 0 then get_v_uint64_t.done ptr part0 part1 part2 else
  let b := (mem ptr).val; let ptr := ptr + 1; let part1 := part1 ||| ((b &&& 0x7F) <<< 7)
  if b &&& 0x80 = 0 then get_v_uint64_t.done ptr part0 part1 part2 else
  let b := (mem ptr).val; let ptr := ptr + 1; let part1 := part1 ||| ((b &&& 0x7F) <<< 14)
  if b &&& 0x80 = 0 then get_v_uint64_t.done ptr part0 part1 part2 else
  let b := (mem ptr).val; let ptr := ptr + 1; let part1 := part1 ||| ((b &&& 0x7F) <<< 21)
  if b &&& 0x80 = 0 then get_v_uint64_t.done ptr part0 part1 part2 else
  let b := (mem ptr).val; let ptr := ptr + 1; let part2 := b &&& 0x7F
  if b &&& 0x80 = 0 then get_v_uint64_t.done ptr part0 part1 part2 else
  let b := (mem ptr).val; let ptr := ptr + 1; let part2 := part2 ||| ((b &&& 0x7F) <<< 7)
  if b &&& 0x80 = 0 then get_v_uint64_t.done ptr part0 part1 part2 else
  ⟨UPB_ERROR_UNTERMINATED_VARINT, buf, val⟩

/-- Embedding of `skip_v_uint64_t`. -/
def skip_v_uint64_t (mem : Mem) (buf : Nat) : skip_result :=
  let ptr := buf
  let b := (mem ptr).val; let ptr := ptr + 1
  if b &&& 0x80 = 0 then ⟨UPB_STATUS_OK, ptr⟩ else
  let b := (mem ptr).val; let ptr := ptr + 1
  if b &&& 0x80 = 0 then ⟨UPB_STATUS_OK, ptr⟩ else
  let b := (mem ptr).val; let ptr := ptr + 1
  if b &&& 0x80 = 0 then ⟨UPB_STATUS_OK, ptr⟩ else
  let b := (mem ptr).val; let ptr := ptr + 1
  if b &&& 0x80 = 0 then ⟨UPB_STATUS_OK, ptr⟩ else
  let b := (mem ptr).val; let ptr := ptr + 1
  if b &&& 0x80 = 0 then ⟨UPB_STATUS_OK, ptr⟩ else
  let b := (mem ptr).val; let ptr := ptr + 1
  if b &&& 0x80 = 0 then ⟨UPB_STATUS_OK, ptr⟩ else
  let b := (mem ptr).val; let ptr := ptr + 1
  if b &&& 0x80 = 0 then ⟨UPB_STATUS_OK, ptr⟩ else
  let b := (mem ptr).val; let ptr := ptr + 1
  if b &&& 0x80 = 0 then ⟨UPB_STATUS_OK, ptr⟩ else
  let b := (mem ptr).val; let ptr := ptr + 1
  if b &&& 0x80 = 0 then ⟨UPB_STATUS_OK, ptr⟩ else
  let b := (mem ptr).val; let ptr := ptr + 1
  if b &&& 0x80 = 0 then ⟨UPB_STATUS_OK, ptr⟩ else
  ⟨UPB_ERROR_UNTERMINATED_VARINT, buf⟩

/-- Embedding of `get_v_uint32_t`.  The fifth byte is stored with a plain
assignment (`result = (b & 0x7F) << 28`), as in the source; that shift is
reduced modulo `2^32`. -/
def get_v_uint32_t (mem : Mem) (buf val : Nat) : get_result :=
  let ptr := buf
  let b := (mem ptr).val; let ptr := ptr + 1; let result := b &&& 0x7F
  if b &&& 0x80 = 0 then ⟨UPB_STATUS_OK, ptr, result⟩ else
  let b := (mem ptr).val; let ptr := ptr + 1; let result := result ||| ((b &&& 0x7F) <<< 7)
  if b &&& 0x80 = 0 then ⟨UPB_STATUS_OK, ptr, result⟩ else
  let b := (mem ptr).val; let ptr := ptr + 1; let result := result ||| ((b &&& 0x7F) <<< 14)
  if b &&& 0x80 = 0 then ⟨UPB_STATUS_OK, ptr, result⟩ else
  let b := (mem ptr).val; let ptr := ptr + 1; let result := result ||| ((b &&& 0x7F) <<< 21)
  if b &&& 0x80 = 0 then ⟨UPB_STATUS_OK, ptr, result⟩ else
  let b := (mem ptr).val; let ptr := ptr + 1; let result := ((b &&& 0x7F) <<< 28) % 2^32
  if b &&& 0x80 = 0 then ⟨UPB_STATUS_OK, ptr, result⟩ else
  ⟨UPB_ERROR_UNTERMINATED_VARINT, buf, val⟩

/-- The macro `SHL(val, bits)`, i.e. `(uint32_t)val << bits`. -/
def SHL (val bits : Nat) : Nat := (val <<< bits) % 2^32

/-- Embedding of `get_f_uint32_t`, the branch without `UPB_UNALIGNED_READS_OK`. -/
def get_f_uint32_t (mem : Mem) (buf : Nat) (_val : Nat) : get_result :=
  let b := buf
  let val := SHL (mem (b + 0)).val 0 ||| SHL (mem (b + 1)).val 8 |||
    SHL (mem (b + 2)).val 16 ||| SHL (mem (b + 3)).val 24
  let b := b + 4
  ⟨UPB_STATUS_OK, b, val⟩

/-- Embedding of `skip_f_uint32_t`. -/
def skip_f_uint32_t (buf : Nat) : skip_result := ⟨UPB_STATUS_OK, buf + 4⟩

/-- Embedding of `get_f_uint64_t`, the branch without `UPB_UNALIGNED_READS_OK`. -/
def get_f_uint64_t (mem : Mem) (buf : Nat) (_val : Nat) : get_result :=
  let r1 := get_f_uint32_t mem buf 0
  let lo32 := r1.val
  let r2 := get_f_uint32_t mem r1.buf 0
  let hi32 := r2.val
  ⟨UPB_STATUS_OK, r2.buf, lo32 ||| ((hi32 <<< 32) % 2^64)⟩

/-- Embedding of `skip_f_uint64_t`. -/
def skip_f_uint64_t (buf : Nat) : skip_result := ⟨UPB_STATUS_OK, buf + 8⟩

/-! ## ZigZag -/

/-- Conversion `(int32_t)x` of a 32-bit pattern to its two's-complement value. -/
def toInt32 (x : Nat) : Int :=
  if x % 2^32 < 2^31 then ((x % 2^32 : Nat) : Int) else ((x % 2^32 : Nat) : Int) - 2^32

/-- Conversion `(int64_t)x` of a 64-bit pattern to its two's-complement value. -/
def toInt64 (x : Nat) : Int :=
  if x % 2^64 < 2^63 then ((x % 2^64 : Nat) : Int) else ((x % 2^64 : Nat) : Int) - 2^64

/-- Conversion `(uint32_t)v` of a signed value to its 32-bit pattern. -/
def ofInt32 (v : Int) : Nat := (v % 2^32).toNat

/-- Conversion `(uint64_t)v` of a signed value to its 64-bit pattern. -/
def ofInt64 (v : Int) : Nat := (v % 2^64).toNat

/-- Embedding of `zz_decode_32`: `(n >> 1) ^ -(int32_t)(n & 1)`, the negated
low bit being converted to `uint32_t` for the exclusive or. -/
def zz_decode_32 (n : Nat) : Int :=
  toInt32 ((n >>> 1) ^^^ ofInt32 (-(toInt32 (n &&& 1))))

/-- Embedding of `zz_decode_64`: `(n >> 1) ^ -(int64_t)(n & 1)`. -/
def zz_decode_64 (n : Nat) : Int :=
  toInt64 ((n >>> 1) ^^^ ofInt64 (-(toInt64 (n &&& 1))))

/-! ## Wire values converted to values -/

/-- The `union upb_value`, tagged with the member that was written last.
`_double` and `_float` hold the IEEE-754 bit pattern copied by `memcpy`. -/
inductive upb_value
  | _double (bits : Nat)
  | _float (bits : Nat)
  | int32 (v : Int)
  | int64 (v : Int)
  | uint32 (v : Nat)
  | uint64 (v : Nat)
  | _bool (b : Bool)
  deriving DecidableEq, Repr

/-- Modelled from the spec: the member `delim_len` of `union upb_value`
(declared in `upb_parse.h`, which is not among the sources), "the byte length
of the payload".  It is a 32-bit member sharing its storage with `uint32`:
reading it returns the low 32 bits of whatever member was written last
(little-endian layout; bytes of the union that a narrower write left
untouched are read as zero). -/
def upb_value.delim_len : upb_value → Nat
  | ._double bits => bits % 2^32
  | ._float bits => bits % 2^32
  | .int32 v => ofInt32 v
  | .int64 v => ofInt64 v % 2^32
  | .uint32 v => v % 2^32
  | .uint64 v => v % 2^32
  | ._bool b => b.toNat

/-- Outcome of `get_<TYPE>(void **buf, union upb_value *d)` and of
`upb_parse_value`: status, `*buf` and `*d` after the call. -/
structure value_result where
  status : upb_status_t
  buf : Nat
  v : upb_value
  deriving DecidableEq, Repr

/-- The macro `GET`: read the wire integer with `get`, and on success convert
it with `wvtov` into the destination member; on failure return the status
and leave `*d` as it was. -/
def GET (get : Mem → Nat → Nat → get_result) (wvtov : Nat → upb_value)
    (mem : Mem) (buf : Nat) (d : upb_value) : value_result :=
  let r := get mem buf 0
  if r.status ≠ UPB_STATUS_OK then ⟨r.status, r.buf, d⟩ else
  ⟨UPB_STATUS_OK, r.buf, wvtov r.val⟩

/-- Converter `wvtov_DOUBLE`: `memcpy(d, &s, sizeof(double))`. -/
def wvtov_DOUBLE (s : Nat) : upb_value := ._double s
/-- Converter `wvtov_FLOAT`: `memcpy(d, &s, sizeof(float))`. -/
def wvtov_FLOAT (s : Nat) : upb_value := ._float s
/-- Converter `wvtov_INT32`: `*d = (int32_t)s`. -/
def wvtov_INT32 (s : Nat) : upb_value := .int32 (toInt32 s)
/-- Converter `wvtov_INT64`: `*d = (int64_t)s`. -/
def wvtov_INT64 (s : Nat) : upb_value := .int64 (toInt64 s)
/-- Converter `wvtov_UINT32`: `*d = s`. -/
def wvtov_UINT32 (s : Nat) : upb_value := .uint32 s
/-- Converter `wvtov_UINT64`: `*d = s`. -/
def wvtov_UINT64 (s : Nat) : upb_value := .uint64 s
/-- Converter `wvtov_SINT32`: `*d = zz_decode_32(s)`. -/
def wvtov_SINT32 (s : Nat) : upb_value := .int32 (zz_decode_32 s)
/-- Converter `wvtov_SINT64`: `*d = zz_decode_64(s)`. -/
def wvtov_SINT64 (s : Nat) : upb_value := .int64 (zz_decode_64 s)
/-- Converter `wvtov_FIXED32`: `*d = s`. -/
def wvtov_FIXED32 (s : Nat) : upb_value := .uint32 s
/-- Converter `wvtov_FIXED64`: `*d = s`. -/
def wvtov_FIXED64 (s : Nat) : upb_value := .uint64 s
/-- Converter `wvtov_SFIXED32`: `*d = (int32_t)s`. -/
def wvtov_SFIXED32 (s : Nat) : upb_value := .int32 (toInt32 s)
/-- Converter `wvtov_SFIXED64`: `*d = (int64_t)s`. -/
def wvtov_SFIXED64 (s : Nat) : upb_value := .int64 (toInt64 s)
/-- Converter `wvtov_BOOL`: `*d = (bool)s`. -/
def wvtov_BOOL (s : Nat) : upb_value := ._bool (decide (s ≠ 0))
/-- Converter `wvtov_ENUM`: `*d = (int32_t)s`. -/
def wvtov_ENUM (s : Nat) : upb_value := .int32 (toInt32 s)

/-- Instance `T(DOUBLE, f, uint64_t, double, _double)`. -/
def get_DOUBLE := GET get_f_uint64_t wvtov_DOUBLE
/-- Instance `T(FLOAT, f, uint32_t, float, _float)`. -/
def get_FLOAT := GET get_f_uint32_t wvtov_FLOAT
/-- Instance `T(INT32, v, uint32_t, int32_t, int32)`. -/
def get_INT32 := GET get_v_uint32_t wvtov_INT32
/-- Instance `T(INT64, v, uint64_t, int64_t, int64)`. -/
def get_INT64 := GET get_v_uint64_t wvtov_INT64
/-- Instance `T(UINT32, v, uint32_t, uint32_t, uint32)`. -/
def get_UINT32 := GET get_v_uint32_t wvtov_UINT32
/-- Instance `T(UINT64, v, uint64_t, uint64_t, uint64)`. -/
def get_UINT64 := GET get_v_uint64_t wvtov_UINT64
/-- Instance `T(SINT32, v, uint32_t, int32_t, int32)`. -/
def get_SINT32 := GET get_v_uint32_t wvtov_SINT32
/-- Instance `T(SINT64, v, uint64_t, int64_t, int64)`. -/
def get_SINT64 := GET get_v_uint64_t wvtov_SINT64
/-- Instance `T(FIXED32, f, uint32_t, uint32_t, uint32)`. -/
def get_FIXED32 := GET get_f_uint32_t wvtov_FIXED32
/-- Instance `T(FIXED64, f, uint64_t, uint64_t, uint64)`. -/
def get_FIXED64 := GET get_f_uint64_t wvtov_FIXED64
/-- Instance `T(SFIXED32, f, uint32_t, int32_t, int32)`. -/
def get_SFIXED32 := GET get_f_uint32_t wvtov_SFIXED32
/-- Instance `T(SFIXED64, f, uint64_t, int64_t, int64)`. -/
def get_SFIXED64 := GET get_f_uint64_t wvtov_SFIXED64
/-- Instance `T(BOOL, v, uint32_t, bool, _bool)`. -/
def get_BOOL := GET get_v_uint32_t wvtov_BOOL
/-- Instance `T(ENUM, v, uint32_t, int32_t, int32)`. -/
def get_ENUM := GET get_v_uint32_t wvtov_ENUM

/-! ## Wire types, field types, tags -/

/-- Modelled from the spec: the enumerators of `upb_wire_type_t` (declared in
a header that is not among the sources), "the 3-bit code in a tag", with the
protocol-buffer wire-format numbering. -/
def UPB_WIRE_TYPE_VARINT : Nat := 0
/-- Modelled from the spec: see `UPB_WIRE_TYPE_VARINT`. -/
def UPB_WIRE_TYPE_64BIT : Nat := 1
/-- Modelled from the spec: see `UPB_WIRE_TYPE_VARINT`. -/
def UPB_WIRE_TYPE_DELIMITED : Nat := 2
/-- Modelled from the spec: see `UPB_WIRE_TYPE_VARINT`. -/
def UPB_WIRE_TYPE_START_GROUP : Nat := 3
/-- Modelled from the spec: see `UPB_WIRE_TYPE_VARINT`. -/
def UPB_WIRE_TYPE_END_GROUP : Nat := 4
/-- Modelled from the spec: see `UPB_WIRE_TYPE_VARINT`. -/
def UPB_WIRE_TYPE_32BIT : Nat := 5

/-- Modelled from the spec: the field-type enumerators
`GOOGLE_PROTOBUF_FIELDDESCRIPTORPROTO_TYPE_*` of `descriptor.h` (not among
the sources), with the numbering of the protocol-buffer descriptor; `0` is
the resolver's "no field" answer. -/
def TYPE_DOUBLE : Nat := 1
/-- Modelled from the spec: see `TYPE_DOUBLE`. -/
def TYPE_FLOAT : Nat := 2
/-- Modelled from the spec: see `TYPE_DOUBLE`. -/
def TYPE_INT64 : Nat := 3
/-- Modelled from the spec: see `TYPE_DOUBLE`. -/
def TYPE_UINT64 : Nat := 4
/-- Modelled from the spec: see `TYPE_DOUBLE`. -/
def TYPE_INT32 : Nat := 5
/-- Modelled from the spec: see `TYPE_DOUBLE`. -/
def TYPE_FIXED64 : Nat := 6
/-- Modelled from the spec: see `TYPE_DOUBLE`. -/
def TYPE_FIXED32 : Nat := 7
/-- Modelled from the spec: see `TYPE_DOUBLE`. -/
def TYPE_BOOL : Nat := 8
/-- Modelled from the spec: see `TYPE_DOUBLE`. -/
def TYPE_STRING : Nat := 9
/-- Modelled from the spec: see `TYPE_DOUBLE`. -/
def TYPE_GROUP : Nat := 10
/-- Modelled from the spec: see `TYPE_DOUBLE`. -/
def TYPE_MESSAGE : Nat := 11
/-- Modelled from the spec: see `TYPE_DOUBLE`. -/
def TYPE_BYTES : Nat := 12
/-- Modelled from the spec: see `TYPE_DOUBLE`. -/
def TYPE_UINT32 : Nat := 13
/-- Modelled from the spec: see `TYPE_DOUBLE`. -/
def TYPE_ENUM : Nat := 14
/-- Modelled from the spec: see `TYPE_DOUBLE`. -/
def TYPE_SFIXED32 : Nat := 15
/-- Modelled from the spec: see `TYPE_DOUBLE`. -/
def TYPE_SFIXED64 : Nat := 16
/-- Modelled from the spec: see `TYPE_DOUBLE`. -/
def TYPE_SINT32 : Nat := 17
/-- Modelled from the spec: see `TYPE_DOUBLE`. -/
def TYPE_SINT64 : Nat := 18

/-- The `struct upb_tag`. -/
structure upb_tag where
  field_number : Nat
  wire_type : Nat
  deriving DecidableEq, Repr

/-- Outcome of `upb_parse_tag`: status, `*buf` and `*tag` after the call. -/
structure tag_result where
  status : upb_status_t
  buf : Nat
  tag : upb_tag
  deriving DecidableEq, Repr

/-- Embedding of `upb_parse_tag`. -/
def upb_parse_tag (mem : Mem) (buf : Nat) (tag : upb_tag) : tag_result :=
  let r := get_v_uint32_t mem buf 0
  if r.status ≠ UPB_STATUS_OK then ⟨r.status, r.buf, tag⟩ else
  let tag_int := r.val
  ⟨UPB_STATUS_OK, r.buf, { wire_type := tag_int &&& 0x07, field_number := tag_int >>> 3 }⟩

/-! ## Wire values -/

/-- The `union upb_wire_value`, tagged with the member written last. -/
inductive upb_wire_value
  | varint (v : Nat)
  | _64bit (v : Nat)
  | _32bit (v : Nat)
  deriving DecidableEq, Repr

/-- Outcome of `upb_parse_wire_value`: status, `*offset` and `*wv` after the
call. -/
structure wire_value_result where
  status : upb_status_t
  offset : Nat
  wv : upb_wire_value
  deriving DecidableEq, Repr

/-- Outcome of `upb_skip_wire_value`: status and `*offset` after the call. -/
structure skip_wire_value_result where
  status : upb_status_t
  offset : Nat
  deriving DecidableEq, Repr

/-- Embedding of `upb_parse_wire_value`; `size_t` has `w` bits.  The macro
`READ(expr)` is `CHECK(expr); *offset += (b - buf)`. -/
def upb_parse_wire_value (w : Nat) (mem : Mem) (buf : Nat) (offset : Nat) (wt : Nat)
    (wv : upb_wire_value) : wire_value_result :=
  let b := buf
  if wt = UPB_WIRE_TYPE_VARINT then
    let r := get_v_uint64_t mem b 0
    if r.status ≠ UPB_STATUS_OK then ⟨r.status, offset, wv⟩ else
    let b := r.buf
    let wv := upb_wire_value.varint r.val
    let offset := (offset + (b - buf)) % 2^w
    ⟨UPB_STATUS_OK, offset, wv⟩
  else if wt = UPB_WIRE_TYPE_64BIT then
    let r := get_f_uint64_t mem b 0
    if r.status ≠ UPB_STATUS_OK then ⟨r.status, offset, wv⟩ else
    let b := r.buf
    let wv := upb_wire_value._64bit r.val
    let offset := (offset + (b - buf)) % 2^w
    ⟨UPB_STATUS_OK, offset, wv⟩
  else if wt = UPB_WIRE_TYPE_32BIT then
    let r := get_f_uint32_t mem b 0
    if r.status ≠ UPB_STATUS_OK then ⟨r.status, offset, wv⟩ else
    let b := r.buf
    let wv := upb_wire_value._32bit r.val
    let offset := (offset + (b - buf)) % 2^w
    ⟨UPB_STATUS_OK, offset, wv⟩
  else if wt = UPB_WIRE_TYPE_DELIMITED then
    let r := get_v_uint32_t mem b 0
    if r.status ≠ UPB_STATUS_OK then ⟨r.status, offset, wv⟩ else
    let b := r.buf
    let wv := upb_wire_value._32bit r.val
    let offset := (offset + (b - buf)) % 2^w
    let new_offset := (offset + r.val) % 2^w
    if new_offset < offset then ⟨UPB_ERROR_OVERFLOW, offset, wv⟩ else
    let offset := (offset + new_offset) % 2^w
    ⟨UPB_STATUS_OK, offset, wv⟩
  else
    ⟨UPB_STATUS_OK, offset, wv⟩

/-- Embedding of `upb_skip_wire_value`; `size_t` has `w` bits. -/
def upb_skip_wire_value (w : Nat) (mem : Mem) (buf : Nat) (offset : Nat) (wt : Nat) :
    skip_wire_value_result :=
  let b := buf
  if wt = UPB_WIRE_TYPE_VARINT then
    let r := skip_v_uint64_t mem b
    if r.status ≠ UPB_STATUS_OK then ⟨r.status, offset⟩ else
    let b := r.buf
    let offset := (offset + (b - buf)) % 2^w
    ⟨UPB_STATUS_OK, offset⟩
  else if wt = UPB_WIRE_TYPE_64BIT then
    let r := skip_f_uint64_t b
    if r.status ≠ UPB_STATUS_OK then ⟨r.status, offset⟩ else
    let b := r.buf
    let offset := (offset + (b - buf)) % 2^w
    ⟨UPB_STATUS_OK, offset⟩
  else if wt = UPB_WIRE_TYPE_32BIT then
    let r := skip_f_uint32_t b
    if r.status ≠ UPB_STATUS_OK then ⟨r.status, offset⟩ else
    let b := r.buf
    let offset := (offset + (b - buf)) % 2^w
    ⟨UPB_STATUS_OK, offset⟩
  else if wt = UPB_WIRE_TYPE_DELIMITED then
    let r := get_v_uint32_t mem b 0
    if r.status ≠ UPB_STATUS_OK then ⟨r.status, offset⟩ else
    let b := r.buf
    let len := r.val
    let offset := (offset + (b - buf)) % 2^w
    let new_offset := (offset + len) % 2^w
    if new_offset < offset then ⟨UPB_ERROR_OVERFLOW, offset⟩ else
    let offset := (offset + new_offset) % 2^w
    ⟨UPB_STATUS_OK, offset⟩
  else
    ⟨UPB_STATUS_OK, offset⟩

/-- Embedding of `upb_parse_value`. -/
def upb_parse_value (mem : Mem) (b : Nat) (ft : Nat) (v : upb_value) : value_result :=
  if ft = TYPE_DOUBLE then get_DOUBLE mem b v
  else if ft = TYPE_FLOAT then get_FLOAT mem b v
  else if ft = TYPE_INT64 then get_INT64 mem b v
  else if ft = TYPE_UINT64 then get_UINT64 mem b v
  else if ft = TYPE_INT32 then get_INT32 mem b v
  else if ft = TYPE_FIXED64 then get_FIXED64 mem b v
  else if ft = TYPE_FIXED32 then get_FIXED32 mem b v
  else if ft = TYPE_BOOL then get_BOOL mem b v
  else if ft = TYPE_UINT32 then get_UINT32 mem b v
  else if ft = TYPE_ENUM then get_ENUM mem b v
  else if ft = TYPE_SFIXED32 then get_SFIXED32 mem b v
  else if ft = TYPE_SFIXED64 then get_SFIXED64 mem b v
  else if ft = TYPE_SINT32 then get_SINT32 mem b v
  else if ft = TYPE_SINT64 then get_SINT64 mem b v
  else if ft = TYPE_BYTES ∨ ft = TYPE_STRING ∨ ft = TYPE_MESSAGE then get_UINT32 mem b v
  else ⟨UPB_STATUS_OK, b, v⟩

/-! ## Parse stack machine and driver

The callbacks of `struct upb_parse_state` are external code.  Their
invocations are recorded, in order, in a trace; they are taken not to modify
the parse state themselves.  The resolver `tag_cb` is a function of the state
and the tag returning the field type and the user field descriptor.

Frame pointers (`top`, `limit`) are measured in frames: one unit is
`sizeof(struct upb_parse_stack_frame) + udata_size` bytes, the stride by which
`push_stack_frame` and `pop_stack_frame` move `top`.  The frame storage is a
total map from frame positions to the `end_offset` stored there.
-/

/-- One callback invocation. -/
inductive upb_event
  | tag_cb (tag : upb_tag)
  | submsg_start_cb (user_field_desc : Nat)
  | submsg_end_cb
  | value_cb (v : upb_value) (b : Nat) (user_field_desc : Nat)
  deriving DecidableEq, Repr

/-- The `struct upb_parse_state` (its declaration is in `upb_parse.h`, not
among the sources; the fields are those `upb_parse.c` uses). -/
structure upb_parse_state where
  offset : Nat
  top : Int
  limit : Int
  stack : Int → Nat
  done : Bool
  packed_type : Nat
  packed_end_offset : Nat
  trace : List upb_event

/-- Embedding of `pop_stack_frame`. -/
def pop_stack_frame (s : upb_parse_state) : upb_parse_state :=
  let s := { s with trace := s.trace ++ [upb_event.submsg_end_cb] }
  { s with top := s.top - 1 }

/-- Embedding of `push_stack_frame`. -/
def push_stack_frame (s : upb_parse_state) (end_offset : Nat) (user_field_desc : Nat) :
    upb_status_t × upb_parse_state :=
  let s := { s with top := s.top + 1 }
  if s.top > s.limit then (UPB_ERROR_STACK_OVERFLOW, s) else
  let s := { s with stack := Function.update s.stack s.top end_offset }
  let s := { s with trace := s.trace ++ [upb_event.submsg_start_cb user_field_desc] }
  (UPB_STATUS_OK, s)

/-- The loop `while(s->offset >= s->top->end_offset) pop_stack_frame(s);`
of `upb_parse`, with fuel: `none` when the fuel does not suffice. -/
def pop_loop : Nat → upb_parse_state → Option upb_parse_state
  | 0, _ => none
  | fuel + 1, s =>
    if s.offset ≥ s.stack s.top then pop_loop fuel (pop_stack_frame s) else some s

/-- The loop `while(s->packed_end_offset > s->offset) { }` of `upb_parse`
(its body is empty in the source), with fuel. -/
def packed_loop : Nat → upb_parse_state → Option upb_parse_state
  | 0, _ => none
  | fuel + 1, s =>
    if s.packed_end_offset > s.offset then packed_loop fuel s else some s

/-- The outer `while` loop of `upb_parse`, with fuel; `buf` is the local
cursor, `end_offset` the local computed on entry, `v0` the indeterminate
initial contents of the local `union upb_value v`.  Returns the status with
which `upb_parse` leaves the loop (`UPB_STATUS_OK` when the loop condition
fails) and the state then; `none` when the fuel does not suffice. -/
def upb_parse_loop (w : Nat) (tag_cb : upb_parse_state → upb_tag → Nat × Nat) (mem : Mem)
    (v0 : upb_value) (end_offset : Nat) :
    Nat → upb_parse_state → Nat → Option (upb_status_t × upb_parse_state)
  | 0, _, _ => none
  | fuel + 1, s, buf =>
    if ¬ (s.done = false ∧ s.offset < end_offset) then some (UPB_STATUS_OK, s) else
    match pop_loop (fuel + 1) s with
    | none => none
    | some s =>
    match packed_loop (fuel + 1) s with
    | none => none
    | some s =>
    let t := upb_parse_tag mem buf ⟨0, 0⟩
    if t.status ≠ UPB_STATUS_OK then some (t.status, s) else
    let b := t.buf
    let tag := t.tag
    let tag_bytes := b - buf
    let s := { s with offset := (s.offset + tag_bytes) % 2^w }
    let buf := b
    if tag.wire_type = UPB_WIRE_TYPE_END_GROUP then
      if s.stack s.top ≠ 0 then some (UPB_ERROR_SPURIOUS_END_GROUP, s) else
      upb_parse_loop w tag_cb mem v0 end_offset fuel (pop_stack_frame s) buf
    else
    let ft := (tag_cb s tag).1
    let user_field_desc := (tag_cb s tag).2
    let s := { s with trace := s.trace ++ [upb_event.tag_cb tag] }
    if ft = 0 then
      let r := upb_skip_wire_value w mem b s.offset tag.wire_type
      let s := { s with offset := r.offset }
      if r.status ≠ UPB_STATUS_OK then some (r.status, s) else
      upb_parse_loop w tag_cb mem v0 end_offset fuel s buf
    else if ft = TYPE_GROUP then
      let s := (push_stack_frame s 0 user_field_desc).2
      upb_parse_loop w tag_cb mem v0 end_offset fuel s buf
    else
      let r := upb_parse_value mem b ft v0
      if r.status ≠ UPB_STATUS_OK then some (r.status, s) else
      let b := r.buf
      let v := r.v
      if ft = TYPE_MESSAGE then
        let s := (push_stack_frame s ((s.offset + v.delim_len) % 2^w) user_field_desc).2
        upb_parse_loop w tag_cb mem v0 end_offset fuel s buf
      else if ft = TYPE_STRING ∨ ft = TYPE_BYTES then
        let s := { s with trace := s.trace ++ [upb_event.value_cb v b user_field_desc] }
        -- `b = (char*)b + v.delim_len;` is a dead store: `b` is set anew from `buf`
        upb_parse_loop w tag_cb mem v0 end_offset fuel s buf
      else if tag.wire_type = UPB_WIRE_TYPE_DELIMITED then
        let s := { s with packed_type := ft,
                          packed_end_offset := (s.offset + v.delim_len) % 2^w }
        upb_parse_loop w tag_cb mem v0 end_offset fuel s buf
      else
        let r := upb_parse_value mem b ft v
        if r.status ≠ UPB_STATUS_OK then some (r.status, s) else
        let b := r.buf
        let v := r.v
        let s := { s with trace := s.trace ++ [upb_event.value_cb v b user_field_desc] }
        upb_parse_loop w tag_cb mem v0 end_offset fuel s buf

/-- Outcome of `upb_parse`: status, the parse state and `*read` after the
call. -/
structure parse_result where
  status : upb_status_t
  s : upb_parse_state
  read : Nat

/-- Embedding of `upb_parse`; `size_t` has `w` bits, `read` is the previous
content of `*read`.  `none` when the fuel does not suffice. -/
def upb_parse (w : Nat) (tag_cb : upb_parse_state → upb_tag → Nat × Nat) (mem : Mem)
    (v0 : upb_value) (fuel : Nat) (s : upb_parse_state) (buf len read : Nat) :
    Option parse_result :=
  let start_offset := s.offset
  let end_offset := (start_offset + len) % 2^w
  match upb_parse_loop w tag_cb mem v0 end_offset fuel s buf with
  | none => none
  | some (status, s) =>
    if status ≠ UPB_STATUS_OK then some ⟨status, s, read⟩ else
    some ⟨UPB_STATUS_OK, s, (s.offset + 2^w - start_offset) % 2^w⟩

/-- A parse state whose stack holds only the root frame, closing at offset
`end_offset`, with room for `limit` further frames. -/
def root_state (end_offset : Nat) (limit : Int) : upb_parse_state :=
  { offset := 0, top := 0, limit := limit, stack := fun _ => end_offset, done := false,
    packed_type := 0, packed_end_offset := 0, trace := [] }

/-- A resolver that knows a single field: tags of field number `field` are
given field type `ft` and descriptor `desc`, every other tag is unknown
(field type `0`). -/
def only_field (field ft desc : Nat) : upb_parse_state → upb_tag → Nat × Nat :=
  fun _ tag => if tag.field_number = field then (ft, desc) else (0, 0)

/-- What a caller observes of a `upb_parse` outcome: status, stack top,
offset, callback trace and `*read`. -/
def observe (r : Option parse_result) :
    Option (upb_status_t × Int × Nat × List upb_event × Nat) :=
  r.map (fun r => (r.status, r.s.top, r.s.offset, r.s.trace, r.read))

/-- A parse state two bytes below the top of a 64-bit offset range: offset
`2^64 - 2`, only the root frame, which closes at `2^64 - 1`; not done, no
packed tracking. -/
def near_top_state : upb_parse_state :=
  { root_state (2^64 - 1) 8 with offset := 2^64 - 2 }

/-! ## Reference encoders (specification side) -/

/-- Minimal base-128 little-endian encoding of `v`, least significant group
first, every byte but the last carrying the continuation bit; `fuel` bounds
the number of continuation bytes. -/
def encode_varint_fuel : Nat → Nat → List (Fin 256)
  | 0, v => [Fin.ofNat (v % 128)]
  | fuel + 1, v =>
    if v < 128 then [Fin.ofNat v] else Fin.ofNat (v % 128 + 128) :: encode_varint_fuel fuel (v / 128)

/-- Minimal varint encoding of an unsigned 64-bit integer (at most nine
continuation bytes). -/
def encode_varint (v : Nat) : List (Fin 256) := encode_varint_fuel 9 v

/-- Base-128 little-endian value of the bytes at `buf .. buf + k`, seven
payload bits per byte. -/
def varint_sum (mem : Mem) (buf : Nat) : Nat → Nat
  | 0 => (mem buf).val % 128
  | k + 1 => (mem buf).val % 128 + 128 * varint_sum mem (buf + 1) k

/-- Tag integer of a field number and a wire type: `(field_number << 3) | wire_type`. -/
def encode_tag (field_number wire_type : Nat) : Nat := (field_number <<< 3) ||| wire_type

/-- Standard 32-bit zigzag encoder:
`((uint32)v << 1) XOR (uint32)(v >> 31)`, the right shift being arithmetic. -/
def zz_encode_32 (v : Int) : Nat :=
  ((ofInt32 v <<< 1) % 2^32) ^^^ ofInt32 (v >>> (31 : Nat))

/-- Standard 64-bit zigzag encoder:
`((uint64)v << 1) XOR (uint64)(v >> 63)`, the right shift being arithmetic. -/
def zz_encode_64 (v : Int) : Nat :=
  ((ofInt64 v <<< 1) % 2^64) ^^^ ofInt64 (v >>> (63 : Nat))

/-! ## Bit-level facts -/

theorem byte_and_7F (b : Fin 256) : b.val &&& 0x7F = b.val % 128 := by
  have := Nat.and_pow_two_sub_one_eq_mod b.val 7
  simpa using this

set_option maxRecDepth 100000 in
theorem byte_and_80 (b : Fin 256) : (b.val &&& 0x80 = 0) ↔ b.val < 128 := by
  revert b; decide

theorem or_mul (a x s : Nat) (h : a < 2^s) : a ||| x * 2^s = a + x * 2^s := by
  rw [Nat.mul_comm x, Nat.lor_comm, ← Nat.mul_add_lt_is_or h, Nat.add_comm]

theorem or_shl (a x s : Nat) (h : a < 2^s) : a ||| (x <<< s) = a + x * 2^s := by
  rw [Nat.shiftLeft_eq, or_mul a x s h]

theorem acc2 (a0 a1 : Nat) (h0 : a0 < 128) (_h1 : a1 < 128) :
    a0 ||| (a1 <<< 7) = a0 + a1 * 2^7 := or_shl _ _ _ (by omega)

theorem acc3 (a0 a1 a2 : Nat) (h0 : a0 < 128) (h1 : a1 < 128) (_h2 : a2 < 128) :
    a0 ||| (a1 <<< 7) ||| (a2 <<< 14) = a0 + a1 * 2^7 + a2 * 2^14 := by
  rw [acc2 a0 a1 h0 h1, or_shl _ _ _ (by omega)]

theorem acc4 (a0 a1 a2 a3 : Nat) (h0 : a0 < 128) (h1 : a1 < 128) (h2 : a2 < 128)
    (_h3 : a3 < 128) :
    a0 ||| (a1 <<< 7) ||| (a2 <<< 14) ||| (a3 <<< 21)
      = a0 + a1 * 2^7 + a2 * 2^14 + a3 * 2^21 := by
  rw [acc3 a0 a1 a2 h0 h1 h2, or_shl _ _ _ (by omega)]

theorem done_eq (ptr p0 p1 p2 : Nat) (h0 : p0 < 2^28) (h1 : p1 < 2^28) :
    get_v_uint64_t.done ptr p0 p1 p2
      = ⟨UPB_STATUS_OK, ptr, (p0 + p1 * 2^28 + p2 * 2^56) % 2^64⟩ := by
  have e1 : (p1 <<< 28) % 2^64 = p1 * 2^28 := by
    rw [Nat.shiftLeft_eq]; omega
  have e2 : (p2 <<< 56) % 2^64 = (p2 % 2^8) * 2^56 := by
    rw [Nat.shiftLeft_eq]; omega
  unfold get_v_uint64_t.done
  rw [e1, e2, or_mul p0 p1 28 h0, or_mul (p0 + p1 * 2^28) (p2 % 2^8) 56 (by omega)]
  simp only [get_result.mk.injEq, true_and]
  omega

/-- On a varint whose first byte without continuation bit is at index `k ≤ 9`,
`get_v_uint64_t` succeeds, advances by `k + 1` and stores the base-128 value
modulo `2^64`. -/
theorem get_v_uint64_t_spec (mem : Mem) (buf val k : Nat) (hk : k ≤ 9)
    (hcont : ∀ i, i < k → 128 ≤ (mem (buf + i)).val)
    (hterm : (mem (buf + k)).val < 128) :
    get_v_uint64_t mem buf val = ⟨UPB_STATUS_OK, buf + k + 1, varint_sum mem buf k % 2^64⟩ := by
  have hc : ∀ i, i < k → ¬ (mem (buf + i)).val < 128 := fun i hi => by have := hcont i hi; omega
  have hb : ∀ i, (mem (buf + i)).val % 128 < 128 := fun i => Nat.mod_lt _ (by norm_num)
  have hb0 := hb 0; have hb1 := hb 1; have hb2 := hb 2; have hb3 := hb 3; have hb4 := hb 4
  have hb5 := hb 5; have hb6 := hb 6; have hb7 := hb 7; have hb8 := hb 8; have hb9 := hb 9
  interval_cases k
  · simp only [Nat.add_zero] at *
    simp only [get_v_uint64_t, byte_and_80, byte_and_7F, hterm, if_true, if_false,
      varint_sum, Nat.add_assoc, Nat.reduceAdd]
    rw [done_eq _ _ _ _ (by omega) (by omega)]
    simp only [get_result.mk.injEq, true_and]
    omega
  · have c0 := hc 0 (by omega)
    simp only [Nat.add_zero] at *
    simp only [get_v_uint64_t, byte_and_80, byte_and_7F, hterm, c0, if_true, if_false,
      varint_sum, Nat.add_assoc, Nat.reduceAdd]
    rw [acc2 _ _ hb0 hb1]
    rw [done_eq _ _ _ _ (by omega) (by omega)]
    simp only [get_result.mk.injEq, true_and]
    omega
  · have c0 := hc 0 (by omega)
    have c1 := hc 1 (by omega)
    simp only [Nat.add_zero] at *
    simp only [get_v_uint64_t, byte_and_80, byte_and_7F, hterm, c0, c1, if_true, if_false,
      varint_sum, Nat.add_assoc, Nat.reduceAdd]
    rw [acc3 _ _ _ hb0 hb1 hb2]
    rw [done_eq _ _ _ _ (by omega) (by omega)]
    simp only [get_result.mk.injEq, true_and]
    omega
  · have c0 := hc 0 (by omega)
    have c1 := hc 1 (by omega)
    have c2 := hc 2 (by omega)
    simp only [Nat.add_zero] at *
    simp only [get_v_uint64_t, byte_and_80, byte_and_7F, hterm, c0, c1, c2, if_true, if_false,
      varint_sum, Nat.add_assoc, Nat.reduceAdd]
    rw [acc4 _ _ _ _ hb0 hb1 hb2 hb3]
    rw [done_eq _ _ _ _ (by omega) (by omega)]
    simp only [get_result.mk.injEq, true_and]
    omega
  · have c0 := hc 0 (by omega)
    have c1 := hc 1 (by omega)
    have c2 := hc 2 (by omega)
    have c3 := hc 3 (by omega)
    simp only [Nat.add_zero] at *
    simp only [get_v_uint64_t, byte_and_80, byte_and_7F, hterm, c0, c1, c2, c3, if_true, if_false,
      varint_sum, Nat.add_assoc, Nat.reduceAdd]
    rw [acc4 _ _ _ _ hb0 hb1 hb2 hb3]
    rw [done_eq _ _ _ _ (by omega) (by omega)]
    simp only [get_result.mk.injEq, true_and]
    omega
  · have c0 := hc 0 (by omega)
    have c1 := hc 1 (by omega)
    have c2 := hc 2 (by omega)
    have c3 := hc 3 (by omega)
    have c4 := hc 4 (by omega)
    simp only [Nat.add_zero] at *
    simp only [get_v_uint64_t, byte_and_80, byte_and_7F, hterm, c0, c1, c2, c3, c4, if_true, if_false,
      varint_sum, Nat.add_assoc, Nat.reduceAdd]
    rw [acc4 _ _ _ _ hb0 hb1 hb2 hb3, acc2 _ _ hb4 hb5]
    rw [done_eq _ _ _ _ (by omega) (by omega)]
    simp only [get_result.mk.injEq, true_and]
    omega
  · have c0 := hc 0 (by omega)
    have c1 := hc 1 (by omega)
    have c2 := hc 2 (by omega)
    have c3 := hc 3 (by omega)
    have c4 := hc 4 (by omega)
    have c5 := hc 5 (by omega)
    simp only [Nat.add_zero] at *
    simp only [get_v_uint64_t, byte_and_80, byte_and_7F, hterm, c0, c1, c2, c3, c4, c5, if_true, if_false,
      varint_sum, Nat.add_assoc, Nat.reduceAdd]
    rw [acc4 _ _ _ _ hb0 hb1 hb2 hb3, acc3 _ _ _ hb4 hb5 hb6]
    rw [done_eq _ _ _ _ (by omega) (by omega)]
    simp only [get_result.mk.injEq, true_and]
    omega
  · have c0 := hc 0 (by omega)
    have c1 := hc 1 (by omega)
    have c2 := hc 2 (by omega)
    have c3 := hc 3 (by omega)
    have c4 := hc 4 (by omega)
    have c5 := hc 5 (by omega)
    have c6 := hc 6 (by omega)
    simp only [Nat.add_zero] at *
    simp only [get_v_uint64_t, byte_and_80, byte_and_7F, hterm, c0, c1, c2, c3, c4, c5, c6, if_true, if_false,
      varint_sum, Nat.add_assoc, Nat.reduceAdd]
    rw [acc4 _ _ _ _ hb0 hb1 hb2 hb3, acc4 _ _ _ _ hb4 hb5 hb6 hb7]
    rw [done_eq _ _ _ _ (by omega) (by omega)]
    simp only [get_result.mk.injEq, true_and]
    omega
  · have c0 := hc 0 (by omega)
    have c1 := hc 1 (by omega)
    have c2 := hc 2 (by omega)
    have c3 := hc 3 (by omega)
    have c4 := hc 4 (by omega)
    have c5 := hc 5 (by omega)
    have c6 := hc 6 (by omega)
    have c7 := hc 7 (by omega)
    simp only [Nat.add_zero] at *
    simp only [get_v_uint64_t, byte_and_80, byte_and_7F, hterm, c0, c1, c2, c3, c4, c5, c6, c7, if_true, if_false,
      varint_sum, Nat.add_assoc, Nat.reduceAdd]
    rw [acc4 _ _ _ _ hb0 hb1 hb2 hb3, acc4 _ _ _ _ hb4 hb5 hb6 hb7]
    rw [done_eq _ _ _ _ (by omega) (by omega)]
    simp only [get_result.mk.injEq, true_and]
    omega
  · have c0 := hc 0 (by omega)
    have c1 := hc 1 (by omega)
    have c2 := hc 2 (by omega)
    have c3 := hc 3 (by omega)
    have c4 := hc 4 (by omega)
    have c5 := hc 5 (by omega)
    have c6 := hc 6 (by omega)
    have c7 := hc 7 (by omega)
    have c8 := hc 8 (by omega)
    simp only [Nat.add_zero] at *
    simp only [get_v_uint64_t, byte_and_80, byte_and_7F, hterm, c0, c1, c2, c3, c4, c5, c6, c7, c8, if_true, if_false,
      varint_sum, Nat.add_assoc, Nat.reduceAdd]
    rw [acc4 _ _ _ _ hb0 hb1 hb2 hb3, acc4 _ _ _ _ hb4 hb5 hb6 hb7, acc2 _ _ hb8 hb9]
    rw [done_eq _ _ _ _ (by omega) (by omega)]
    simp only [get_result.mk.injEq, true_and]
    omega

theorem pow128 (n : Nat) : 128 ^ n = 2 ^ (7 * n) := by
  rw [pow_mul]; norm_num

/-- Shape of the minimal encoding: `k` continuation bytes, a terminator, the
base-128 value `v`, and `128^k ≤ v < 128^(k+1)` (the lower bound for `k > 0`). -/
theorem encode_varint_fuel_props (mem : Mem) :
    ∀ (fuel v buf : Nat), v < 128 ^ (fuel + 1) →
      (∀ i, i < (encode_varint_fuel fuel v).length →
        mem (buf + i) = (encode_varint_fuel fuel v).getD i 0) →
      ∃ k, (encode_varint_fuel fuel v).length = k + 1 ∧ k ≤ fuel ∧
        (∀ i, i < k → 128 ≤ (mem (buf + i)).val) ∧ (mem (buf + k)).val < 128 ∧
        varint_sum mem buf k = v ∧ v < 128 ^ (k + 1) ∧ (k = 0 ∨ 128 ^ k ≤ v) := by
  intro fuel
  induction fuel with
  | zero =>
    intro v buf hv hmem
    refine ⟨0, rfl, le_refl _, fun i hi => absurd hi (Nat.not_lt_zero i), ?_, ?_, by simpa using hv, Or.inl rfl⟩
    · have := hmem 0 (by simp [encode_varint_fuel])
      simp [encode_varint_fuel, Fin.ofNat] at this
      rw [Nat.add_zero, this]; simp; omega
    · have := hmem 0 (by simp [encode_varint_fuel])
      simp [encode_varint_fuel, Fin.ofNat] at this
      simp only [varint_sum, this]
      simp at hv ⊢; omega
  | succ fuel ih =>
    intro v buf hv hmem
    by_cases hlt : v < 128
    · simp only [encode_varint_fuel, hlt, if_true] at hmem ⊢
      have := hmem 0 (by simp)
      simp [Fin.ofNat] at this
      refine ⟨0, rfl, Nat.zero_le _, fun i hi => absurd hi (Nat.not_lt_zero i), ?_, ?_, by simpa using hlt, Or.inl rfl⟩
      · rw [Nat.add_zero, this]; simp; omega
      · simp only [varint_sum, this]; omega
    · simp only [encode_varint_fuel, hlt, if_false] at hmem ⊢
      have h0 := hmem 0 (by simp)
      simp [Fin.ofNat] at h0
      have hv' : v / 128 < 128 ^ (fuel + 1) := by
        rw [Nat.div_lt_iff_lt_mul (by norm_num)]
        rw [pow_succ] at hv; exact hv
      obtain ⟨k, hlen, hk, hcont, hterm, hsum, hub, hlb⟩ := ih (v / 128) (buf + 1) hv' (by
        intro i hi
        have := hmem (i + 1) (by simpa using hi)
        simpa [Nat.add_assoc, Nat.add_comm 1 i] using this)
      refine ⟨k + 1, by simp [hlen], by omega, ?_, ?_, ?_, ?_, Or.inr ?_⟩
      · intro i hi
        cases i with
        | zero => rw [Nat.add_zero, h0]; simp; omega
        | succ i =>
          have := hcont i (by omega)
          simpa [Nat.add_assoc, Nat.add_comm 1 i] using this
      · simpa [Nat.add_assoc, Nat.add_comm 1 k] using hterm
      · simp only [varint_sum, hsum, h0]
        omega
      · rw [pow_succ]; omega
      · rw [pow_succ]
        rcases hlb with h | h
        · subst h; simp; omega
        · omega

theorem varint_length_formula (v k : Nat) (hub : v < 128 ^ (k + 1)) (hlb : k = 0 ∨ 128 ^ k ≤ v) :
    k + 1 = max 1 ((Nat.size v + 6) / 7) := by
  rw [pow128] at hub
  have h1 : Nat.size v ≤ 7 * (k + 1) := Nat.size_le.mpr hub
  rcases hlb with h | h
  · subst h; omega
  · rw [pow128] at h
    have h2 : 7 * k < Nat.size v := Nat.lt_size.mpr h
    omega

/-- C1: for every unsigned 64-bit `v`, `get_v_uint64_t` run on memory that
holds the minimal base-128 encoding of `v` at the cursor (any bytes after it)
returns `UPB_STATUS_OK`, stores exactly `v`, and advances the cursor by the
length of the encoding, which is `max 1 (ceil (bitlength v / 7))`. -/
theorem get_v_uint64_t_encode_varint (v : Nat) (hv : v < 2^64) (mem : Mem) (buf val : Nat)
    (hmem : ∀ i, i < (encode_varint v).length → mem (buf + i) = (encode_varint v).getD i 0) :
    get_v_uint64_t mem buf val = ⟨UPB_STATUS_OK, buf + (encode_varint v).length, v⟩ ∧
    (encode_varint v).length = max 1 ((Nat.size v + 6) / 7) := by
  obtain ⟨k, hlen, hk, hcont, hterm, hsum, hub, hlb⟩ :=
    encode_varint_fuel_props mem 9 v buf (by norm_num; omega) hmem
  unfold encode_varint
  rw [hlen]
  refine ⟨?_, varint_length_formula v k hub hlb⟩
  rw [get_v_uint64_t_spec mem buf val k hk hcont hterm, hsum, Nat.mod_eq_of_lt hv, Nat.add_assoc]

/-- Witness for C1 at `v = 300`, encoded as `[0xAC, 0x02]` and followed by a
stray byte. -/
theorem get_v_uint64_t_encode_varint_witness :
    get_v_uint64_t (memOfList [172, 2, 99]) 0 0 = ⟨UPB_STATUS_OK, 0 + (encode_varint 300).length, 300⟩ ∧
    (encode_varint 300).length = max 1 ((Nat.size 300 + 6) / 7) :=
  get_v_uint64_t_encode_varint 300 (by decide) (memOfList [172, 2, 99]) 0 0 (by decide)

/-! ## ZigZag -/

theorem xor_ones (a k : Nat) (h : a < 2^k) : a ^^^ (2^k - 1) = 2^k - 1 - a := by
  apply Nat.eq_of_testBit_eq
  intro i
  have h2 : 2^k - 1 - a = 2^k - (a+1) := by omega
  rw [h2, Nat.testBit_two_pow_sub_succ h, Nat.testBit_xor, Nat.testBit_two_pow_sub_one]
  by_cases hi : i < k
  · simp [hi]
  · simp [hi]
    apply Nat.testBit_lt_two_pow
    calc a < 2^k := h
      _ ≤ 2^i := Nat.pow_le_pow_right (by norm_num) (by omega)

theorem zz_decode_32_even (n : Nat) (h : n < 2^31) : zz_decode_32 (2 * n) = n := by
  have e1 : (2 * n) >>> 1 = n := by rw [Nat.shiftRight_eq_div_pow]; omega
  have e2 : (2 * n) &&& 1 = 0 := by rw [Nat.and_one_is_mod]; omega
  have e3 : ofInt32 (-(toInt32 0)) = 0 := by decide
  unfold zz_decode_32
  rw [e1, e2, e3, Nat.xor_zero]
  unfold toInt32
  have : n % 2^32 = n := Nat.mod_eq_of_lt (by omega)
  rw [this, if_pos h]

theorem zz_decode_32_odd (n : Nat) (h : n < 2^31) : zz_decode_32 (2 * n + 1) = -(n : Int) - 1 := by
  have e1 : (2 * n + 1) >>> 1 = n := by rw [Nat.shiftRight_eq_div_pow]; omega
  have e2 : (2 * n + 1) &&& 1 = 1 := by rw [Nat.and_one_is_mod]; omega
  have e3 : ofInt32 (-(toInt32 1)) = 2^32 - 1 := by decide
  unfold zz_decode_32
  rw [e1, e2, e3, xor_ones n 32 (by omega)]
  unfold toInt32
  have : (2^32 - 1 - n) % 2^32 = 2^32 - 1 - n := Nat.mod_eq_of_lt (by omega)
  rw [this, if_neg (by omega)]
  omega

theorem zz_encode_32_nonneg (n : Nat) (h : n < 2^31) : zz_encode_32 (n : Int) = 2 * n := by
  have e1 : ofInt32 (n : Int) = n := by unfold ofInt32; omega
  have e2 : ((n : Int) >>> (31 : Nat)) = 0 := by rw [Int.shiftRight_eq_div_pow]; omega
  have e3 : ofInt32 0 = 0 := by decide
  unfold zz_encode_32
  rw [e1, e2, e3, Nat.xor_zero, Nat.shiftLeft_eq]
  omega

theorem zz_encode_32_neg (m : Nat) (h : m < 2^31) :
    zz_encode_32 (-(m : Int) - 1) = 2 * m + 1 := by
  have e1 : ofInt32 (-(m : Int) - 1) = 2^32 - 1 - m := by unfold ofInt32; omega
  have e2 : ((-(m : Int) - 1) >>> (31 : Nat)) = -1 := by rw [Int.shiftRight_eq_div_pow]; omega
  have e3 : ofInt32 (-1) = 2^32 - 1 := by decide
  have e4 : ((2^32 - 1 - m) <<< 1) % 2^32 = 2^32 - 1 - (2 * m + 1) := by
    rw [Nat.shiftLeft_eq]; omega
  unfold zz_encode_32
  rw [e1, e2, e3, e4, xor_ones _ 32 (by omega)]
  omega

theorem zz_decode_32_encode_32 (v : Int) (h1 : -2^31 ≤ v) (h2 : v < 2^31) : zz_decode_32 (zz_encode_32 v) = v := by
  by_cases hv : 0 ≤ v
  · obtain ⟨n, rfl⟩ := Int.eq_ofNat_of_zero_le hv
    rw [zz_encode_32_nonneg n (by omega), zz_decode_32_even n (by omega)]
  · obtain ⟨m, hm⟩ : ∃ m : Nat, v = -(m : Int) - 1 := ⟨(-v - 1).toNat, by omega⟩
    subst hm
    rw [zz_encode_32_neg m (by omega), zz_decode_32_odd m (by omega)]

theorem zz_decode_64_even (n : Nat) (h : n < 2^63) : zz_decode_64 (2 * n) = n := by
  have e1 : (2 * n) >>> 1 = n := by rw [Nat.shiftRight_eq_div_pow]; omega
  have e2 : (2 * n) &&& 1 = 0 := by rw [Nat.and_one_is_mod]; omega
  have e3 : ofInt64 (-(toInt64 0)) = 0 := by decide
  unfold zz_decode_64
  rw [e1, e2, e3, Nat.xor_zero]
  unfold toInt64
  have : n % 2^64 = n := Nat.mod_eq_of_lt (by omega)
  rw [this, if_pos h]

theorem zz_decode_64_odd (n : Nat) (h : n < 2^63) : zz_decode_64 (2 * n + 1) = -(n : Int) - 1 := by
  have e1 : (2 * n + 1) >>> 1 = n := by rw [Nat.shiftRight_eq_div_pow]; omega
  have e2 : (2 * n + 1) &&& 1 = 1 := by rw [Nat.and_one_is_mod]; omega
  have e3 : ofInt64 (-(toInt64 1)) = 2^64 - 1 := by decide
  unfold zz_decode_64
  rw [e1, e2, e3, xor_ones n 64 (by omega)]
  unfold toInt64
  have : (2^64 - 1 - n) % 2^64 = 2^64 - 1 - n := Nat.mod_eq_of_lt (by omega)
  rw [this, if_neg (by omega)]
  omega

theorem zz_encode_64_nonneg (n : Nat) (h : n < 2^63) : zz_encode_64 (n : Int) = 2 * n := by
  have e1 : ofInt64 (n : Int) = n := by unfold ofInt64; omega
  have e2 : ((n : Int) >>> (63 : Nat)) = 0 := by rw [Int.shiftRight_eq_div_pow]; omega
  have e3 : ofInt64 0 = 0 := by decide
  unfold zz_encode_64
  rw [e1, e2, e3, Nat.xor_zero, Nat.shiftLeft_eq]
  omega

theorem zz_encode_64_neg (m : Nat) (h : m < 2^63) :
    zz_encode_64 (-(m : Int) - 1) = 2 * m + 1 := by
  have e1 : ofInt64 (-(m : Int) - 1) = 2^64 - 1 - m := by unfold ofInt64; omega
  have e2 : ((-(m : Int) - 1) >>> (63 : Nat)) = -1 := by rw [Int.shiftRight_eq_div_pow]; omega
  have e3 : ofInt64 (-1) = 2^64 - 1 := by decide
  have e4 : ((2^64 - 1 - m) <<< 1) % 2^64 = 2^64 - 1 - (2 * m + 1) := by
    rw [Nat.shiftLeft_eq]; omega
  unfold zz_encode_64
  rw [e1, e2, e3, e4, xor_ones _ 64 (by omega)]
  omega

theorem zz_decode_64_encode_64 (v : Int) (h1 : -2^63 ≤ v) (h2 : v < 2^63) : zz_decode_64 (zz_encode_64 v) = v := by
  by_cases hv : 0 ≤ v
  · obtain ⟨n, rfl⟩ := Int.eq_ofNat_of_zero_le hv
    rw [zz_encode_64_nonneg n (by omega), zz_decode_64_even n (by omega)]
  · obtain ⟨m, hm⟩ : ∃ m : Nat, v = -(m : Int) - 1 := ⟨(-v - 1).toNat, by omega⟩
    subst hm
    rw [zz_encode_64_neg m (by omega), zz_decode_64_odd m (by omega)]

/-- C3: `zz_decode_32` and `zz_decode_64` are exact left inverses of the
standard zigzag encoders on every signed 32-bit, resp. 64-bit, integer. -/
theorem zz_decode_encode (v32 v64 : Int) (h32 : -2^31 ≤ v32 ∧ v32 < 2^31)
    (h64 : -2^63 ≤ v64 ∧ v64 < 2^63) :
    zz_decode_32 (zz_encode_32 v32) = v32 ∧ zz_decode_64 (zz_encode_64 v64) = v64 :=
  ⟨zz_decode_32_encode_32 v32 h32.1 h32.2, zz_decode_64_encode_64 v64 h64.1 h64.2⟩

/-- Witness for C3 at `INT32_MIN` and `INT64_MAX`. -/
theorem zz_decode_encode_witness :
    zz_decode_32 (zz_encode_32 (-2^31)) = -2^31 ∧
    zz_decode_64 (zz_encode_64 (2^63 - 1)) = 2^63 - 1 :=
  zz_decode_encode (-2^31) (2^63 - 1) (by decide) (by decide)

/-! ## Terminated and unterminated varints -/

theorem exists_first_terminator (mem : Mem) (buf n : Nat)
    (h : ¬ ∀ i, i < n → 128 ≤ (mem (buf + i)).val) :
    ∃ k, k < n ∧ (∀ i, i < k → 128 ≤ (mem (buf + i)).val) ∧ (mem (buf + k)).val < 128 := by
  have hex : ∃ k, k < n ∧ (mem (buf + k)).val < 128 := by
    by_contra hne
    apply h
    intro i hi
    by_contra hlt
    exact hne ⟨i, hi, by omega⟩
  refine ⟨Nat.find hex, (Nat.find_spec hex).1, ?_, (Nat.find_spec hex).2⟩
  intro i hi
  by_contra hlt
  exact Nat.find_min hex hi ⟨lt_trans hi (Nat.find_spec hex).1, by omega⟩

theorem skip_v_uint64_t_spec (mem : Mem) (buf k : Nat) (hk : k ≤ 9)
    (hcont : ∀ i, i < k → 128 ≤ (mem (buf + i)).val)
    (hterm : (mem (buf + k)).val < 128) :
    skip_v_uint64_t mem buf = ⟨UPB_STATUS_OK, buf + k + 1⟩ := by
  have hc : ∀ i, i < k → ¬ (mem (buf + i)).val < 128 := fun i hi => by have := hcont i hi; omega
  interval_cases k
  · simp only [Nat.add_zero] at *
    simp only [skip_v_uint64_t, byte_and_80, hterm, if_true, if_false,
      Nat.add_assoc, Nat.reduceAdd]
  · have c0 := hc 0 (by omega)
    simp only [Nat.add_zero] at *
    simp only [skip_v_uint64_t, byte_and_80, hterm, c0, if_true, if_false,
      Nat.add_assoc, Nat.reduceAdd]
  · have c0 := hc 0 (by omega)
    have c1 := hc 1 (by omega)
    simp only [Nat.add_zero] at *
    simp only [skip_v_uint64_t, byte_and_80, hterm, c0, c1, if_true, if_false,
      Nat.add_assoc, Nat.reduceAdd]
  · have c0 := hc 0 (by omega)
    have c1 := hc 1 (by omega)
    have c2 := hc 2 (by omega)
    simp only [Nat.add_zero] at *
    simp only [skip_v_uint64_t, byte_and_80, hterm, c0, c1, c2, if_true, if_false,
      Nat.add_assoc, Nat.reduceAdd]
  · have c0 := hc 0 (by omega)
    have c1 := hc 1 (by omega)
    have c2 := hc 2 (by omega)
    have c3 := hc 3 (by omega)
    simp only [Nat.add_zero] at *
    simp only [skip_v_uint64_t, byte_and_80, hterm, c0, c1, c2, c3, if_true, if_false,
      Nat.add_assoc, Nat.reduceAdd]
  · have c0 := hc 0 (by omega)
    have c1 := hc 1 (by omega)
    have c2 := hc 2 (by omega)
    have c3 := hc 3 (by omega)
    have c4 := hc 4 (by omega)
    simp only [Nat.add_zero] at *
    simp only [skip_v_uint64_t, byte_and_80, hterm, c0, c1, c2, c3, c4, if_true, if_false,
      Nat.add_assoc, Nat.reduceAdd]
  · have c0 := hc 0 (by omega)
    have c1 := hc 1 (by omega)
    have c2 := hc 2 (by omega)
    have c3 := hc 3 (by omega)
    have c4 := hc 4 (by omega)
    have c5 := hc 5 (by omega)
    simp only [Nat.add_zero] at *
    simp only [skip_v_uint64_t, byte_and_80, hterm, c0, c1, c2, c3, c4, c5, if_true, if_false,
      Nat.add_assoc, Nat.reduceAdd]
  · have c0 := hc 0 (by omega)
    have c1 := hc 1 (by omega)
    have c2 := hc 2 (by omega)
    have c3 := hc 3 (by omega)
    have c4 := hc 4 (by omega)
    have c5 := hc 5 (by omega)
    have c6 := hc 6 (by omega)
    simp only [Nat.add_zero] at *
    simp only [skip_v_uint64_t, byte_and_80, hterm, c0, c1, c2, c3, c4, c5, c6, if_true, if_false,
      Nat.add_assoc, Nat.reduceAdd]
  · have c0 := hc 0 (by omega)
    have c1 := hc 1 (by omega)
    have c2 := hc 2 (by omega)
    have c3 := hc 3 (by omega)
    have c4 := hc 4 (by omega)
    have c5 := hc 5 (by omega)
    have c6 := hc 6 (by omega)
    have c7 := hc 7 (by omega)
    simp only [Nat.add_zero] at *
    simp only [skip_v_uint64_t, byte_and_80, hterm, c0, c1, c2, c3, c4, c5, c6, c7, if_true, if_false,
      Nat.add_assoc, Nat.reduceAdd]
  · have c0 := hc 0 (by omega)
    have c1 := hc 1 (by omega)
    have c2 := hc 2 (by omega)
    have c3 := hc 3 (by omega)
    have c4 := hc 4 (by omega)
    have c5 := hc 5 (by omega)
    have c6 := hc 6 (by omega)
    have c7 := hc 7 (by omega)
    have c8 := hc 8 (by omega)
    simp only [Nat.add_zero] at *
    simp only [skip_v_uint64_t, byte_and_80, hterm, c0, c1, c2, c3, c4, c5, c6, c7, c8, if_true, if_false,
      Nat.add_assoc, Nat.reduceAdd]

/-- On a varint whose first byte without continuation bit is at index
`k ≤ 4`, `get_v_uint32_t` succeeds and advances by `k + 1`; it stores the
base-128 value when `k ≤ 3`, and only the fifth byte's payload shifted by 28
(modulo `2^32`) when `k = 4`. -/
theorem get_v_uint32_t_spec (mem : Mem) (buf val k : Nat) (hk : k ≤ 4)
    (hcont : ∀ i, i < k → 128 ≤ (mem (buf + i)).val)
    (hterm : (mem (buf + k)).val < 128) :
    get_v_uint32_t mem buf val = ⟨UPB_STATUS_OK, buf + k + 1,
      if k < 4 then varint_sum mem buf k else ((mem (buf + 4)).val % 128 * 2^28) % 2^32⟩ := by
  have hc : ∀ i, i < k → ¬ (mem (buf + i)).val < 128 := fun i hi => by have := hcont i hi; omega
  have hb : ∀ i, (mem (buf + i)).val % 128 < 128 := fun i => Nat.mod_lt _ (by norm_num)
  have hb0 := hb 0; have hb1 := hb 1; have hb2 := hb 2; have hb3 := hb 3; have hb4 := hb 4
  interval_cases k
  · simp only [Nat.add_zero] at *
    simp only [get_v_uint32_t, byte_and_80, byte_and_7F, hterm, if_true, if_false,
      varint_sum, Nat.add_assoc, Nat.reduceAdd]
    simp only [get_result.mk.injEq, true_and, Nat.reduceLT, Nat.lt_irrefl, if_true, if_false]
    try omega
  · have c0 := hc 0 (by omega)
    simp only [Nat.add_zero] at *
    simp only [get_v_uint32_t, byte_and_80, byte_and_7F, hterm, c0, if_true, if_false,
      varint_sum, Nat.add_assoc, Nat.reduceAdd]
    rw [acc2 _ _ hb0 hb1]
    simp only [get_result.mk.injEq, true_and, Nat.reduceLT, Nat.lt_irrefl, if_true, if_false]
    try omega
  · have c0 := hc 0 (by omega)
    have c1 := hc 1 (by omega)
    simp only [Nat.add_zero] at *
    simp only [get_v_uint32_t, byte_and_80, byte_and_7F, hterm, c0, c1, if_true, if_false,
      varint_sum, Nat.add_assoc, Nat.reduceAdd]
    rw [acc3 _ _ _ hb0 hb1 hb2]
    simp only [get_result.mk.injEq, true_and, Nat.reduceLT, Nat.lt_irrefl, if_true, if_false]
    try omega
  · have c0 := hc 0 (by omega)
    have c1 := hc 1 (by omega)
    have c2 := hc 2 (by omega)
    simp only [Nat.add_zero] at *
    simp only [get_v_uint32_t, byte_and_80, byte_and_7F, hterm, c0, c1, c2, if_true, if_false,
      varint_sum, Nat.add_assoc, Nat.reduceAdd]
    rw [acc4 _ _ _ _ hb0 hb1 hb2 hb3]
    simp only [get_result.mk.injEq, true_and, Nat.reduceLT, Nat.lt_irrefl, if_true, if_false]
    try omega
  · have c0 := hc 0 (by omega)
    have c1 := hc 1 (by omega)
    have c2 := hc 2 (by omega)
    have c3 := hc 3 (by omega)
    simp only [Nat.add_zero] at *
    simp only [get_v_uint32_t, byte_and_80, byte_and_7F, hterm, c0, c1, c2, c3, if_true, if_false,
      varint_sum, Nat.add_assoc, Nat.reduceAdd]
    rw [Nat.shiftLeft_eq]
    simp only [get_result.mk.injEq, true_and, Nat.reduceLT, Nat.lt_irrefl, if_true, if_false]
    try omega

theorem get_v_uint64_t_all_cont (mem : Mem) (buf val : Nat)
    (h : ∀ i, i < 10 → 128 ≤ (mem (buf + i)).val) :
    get_v_uint64_t mem buf val = ⟨UPB_ERROR_UNTERMINATED_VARINT, buf, val⟩ := by
  have c0 : ¬ (mem (buf + 0)).val < 128 := by have := h 0 (by omega); omega
  have c1 : ¬ (mem (buf + 1)).val < 128 := by have := h 1 (by omega); omega
  have c2 : ¬ (mem (buf + 2)).val < 128 := by have := h 2 (by omega); omega
  have c3 : ¬ (mem (buf + 3)).val < 128 := by have := h 3 (by omega); omega
  have c4 : ¬ (mem (buf + 4)).val < 128 := by have := h 4 (by omega); omega
  have c5 : ¬ (mem (buf + 5)).val < 128 := by have := h 5 (by omega); omega
  have c6 : ¬ (mem (buf + 6)).val < 128 := by have := h 6 (by omega); omega
  have c7 : ¬ (mem (buf + 7)).val < 128 := by have := h 7 (by omega); omega
  have c8 : ¬ (mem (buf + 8)).val < 128 := by have := h 8 (by omega); omega
  have c9 : ¬ (mem (buf + 9)).val < 128 := by have := h 9 (by omega); omega
  simp only [Nat.add_zero] at *
  simp only [get_v_uint64_t, byte_and_80, c0, c1, c2, c3, c4, c5, c6, c7, c8, c9, if_false, Nat.add_assoc, Nat.reduceAdd]

theorem skip_v_uint64_t_all_cont (mem : Mem) (buf : Nat)
    (h : ∀ i, i < 10 → 128 ≤ (mem (buf + i)).val) :
    skip_v_uint64_t mem buf = ⟨UPB_ERROR_UNTERMINATED_VARINT, buf⟩ := by
  have c0 : ¬ (mem (buf + 0)).val < 128 := by have := h 0 (by omega); omega
  have c1 : ¬ (mem (buf + 1)).val < 128 := by have := h 1 (by omega); omega
  have c2 : ¬ (mem (buf + 2)).val < 128 := by have := h 2 (by omega); omega
  have c3 : ¬ (mem (buf + 3)).val < 128 := by have := h 3 (by omega); omega
  have c4 : ¬ (mem (buf + 4)).val < 128 := by have := h 4 (by omega); omega
  have c5 : ¬ (mem (buf + 5)).val < 128 := by have := h 5 (by omega); omega
  have c6 : ¬ (mem (buf + 6)).val < 128 := by have := h 6 (by omega); omega
  have c7 : ¬ (mem (buf + 7)).val < 128 := by have := h 7 (by omega); omega
  have c8 : ¬ (mem (buf + 8)).val < 128 := by have := h 8 (by omega); omega
  have c9 : ¬ (mem (buf + 9)).val < 128 := by have := h 9 (by omega); omega
  simp only [Nat.add_zero] at *
  simp only [skip_v_uint64_t, byte_and_80, c0, c1, c2, c3, c4, c5, c6, c7, c8, c9, if_false, Nat.add_assoc, Nat.reduceAdd]

theorem get_v_uint32_t_all_cont (mem : Mem) (buf val : Nat)
    (h : ∀ i, i < 5 → 128 ≤ (mem (buf + i)).val) :
    get_v_uint32_t mem buf val = ⟨UPB_ERROR_UNTERMINATED_VARINT, buf, val⟩ := by
  have c0 : ¬ (mem (buf + 0)).val < 128 := by have := h 0 (by omega); omega
  have c1 : ¬ (mem (buf + 1)).val < 128 := by have := h 1 (by omega); omega
  have c2 : ¬ (mem (buf + 2)).val < 128 := by have := h 2 (by omega); omega
  have c3 : ¬ (mem (buf + 3)).val < 128 := by have := h 3 (by omega); omega
  have c4 : ¬ (mem (buf + 4)).val < 128 := by have := h 4 (by omega); omega
  simp only [Nat.add_zero] at *
  simp only [get_v_uint32_t, byte_and_80, c0, c1, c2, c3, c4, if_false, Nat.add_assoc, Nat.reduceAdd]

theorem cont_bit_iff (mem : Mem) (buf n : Nat) :
    (∀ i, i < n → (mem (buf + i)).val &&& 0x80 ≠ 0) ↔ ∀ i, i < n → 128 ≤ (mem (buf + i)).val := by
  constructor
  · intro h i hi
    have := h i hi
    rw [Ne, byte_and_80] at this
    omega
  · intro h i hi
    rw [Ne, byte_and_80]
    have := h i hi
    omega

theorem get_v_uint64_t_unterminated_iff (mem : Mem) (buf val : Nat) :
    ((get_v_uint64_t mem buf val).status = UPB_ERROR_UNTERMINATED_VARINT ↔
      ∀ i, i < 10 → (mem (buf + i)).val &&& 0x80 ≠ 0) ∧
    ((get_v_uint64_t mem buf val).status = UPB_ERROR_UNTERMINATED_VARINT ↔
      get_v_uint64_t mem buf val = ⟨UPB_ERROR_UNTERMINATED_VARINT, buf, val⟩) := by
  rw [cont_bit_iff]
  by_cases h : ∀ i, i < 10 → 128 ≤ (mem (buf + i)).val
  · rw [get_v_uint64_t_all_cont mem buf val h]
    exact ⟨⟨fun _ => h, fun _ => rfl⟩, ⟨fun _ => rfl, fun _ => rfl⟩⟩
  · obtain ⟨k, hk, hcont, hterm⟩ := exists_first_terminator mem buf 10 h
    rw [get_v_uint64_t_spec mem buf val k (by omega) hcont hterm]
    simp [h]

theorem skip_v_uint64_t_unterminated_iff (mem : Mem) (buf : Nat) :
    ((skip_v_uint64_t mem buf).status = UPB_ERROR_UNTERMINATED_VARINT ↔
      ∀ i, i < 10 → (mem (buf + i)).val &&& 0x80 ≠ 0) ∧
    ((skip_v_uint64_t mem buf).status = UPB_ERROR_UNTERMINATED_VARINT ↔
      skip_v_uint64_t mem buf = ⟨UPB_ERROR_UNTERMINATED_VARINT, buf⟩) := by
  rw [cont_bit_iff]
  by_cases h : ∀ i, i < 10 → 128 ≤ (mem (buf + i)).val
  · rw [skip_v_uint64_t_all_cont mem buf h]
    exact ⟨⟨fun _ => h, fun _ => rfl⟩, ⟨fun _ => rfl, fun _ => rfl⟩⟩
  · obtain ⟨k, hk, hcont, hterm⟩ := exists_first_terminator mem buf 10 h
    rw [skip_v_uint64_t_spec mem buf k (by omega) hcont hterm]
    simp [h]

theorem get_v_uint32_t_unterminated_iff (mem : Mem) (buf val : Nat) :
    ((get_v_uint32_t mem buf val).status = UPB_ERROR_UNTERMINATED_VARINT ↔
      ∀ i, i < 5 → (mem (buf + i)).val &&& 0x80 ≠ 0) ∧
    ((get_v_uint32_t mem buf val).status = UPB_ERROR_UNTERMINATED_VARINT ↔
      get_v_uint32_t mem buf val = ⟨UPB_ERROR_UNTERMINATED_VARINT, buf, val⟩) := by
  rw [cont_bit_iff]
  by_cases h : ∀ i, i < 5 → 128 ≤ (mem (buf + i)).val
  · rw [get_v_uint32_t_all_cont mem buf val h]
    exact ⟨⟨fun _ => h, fun _ => rfl⟩, ⟨fun _ => rfl, fun _ => rfl⟩⟩
  · obtain ⟨k, hk, hcont, hterm⟩ := exists_first_terminator mem buf 5 h
    rw [get_v_uint32_t_spec mem buf val k (by omega) hcont hterm]
    simp [h]

/-- C5: `get_v_uint64_t` and `skip_v_uint64_t` return
`UPB_ERROR_UNTERMINATED_VARINT` exactly when the first 10 bytes at the cursor
all have the continuation bit `0x80` set, `get_v_uint32_t` exactly when the
first 5 bytes do; whenever that status is returned the cursor and the value
are what they were before the call (so nothing is consumed or written).  In
particular this is the outcome on 11 bytes `0xFF`. -/
theorem unterminated_varint_rejected (mem : Mem) (buf val : Nat) :
    (((get_v_uint64_t mem buf val).status = UPB_ERROR_UNTERMINATED_VARINT ↔
        ∀ i, i < 10 → (mem (buf + i)).val &&& 0x80 ≠ 0) ∧
      ((get_v_uint64_t mem buf val).status = UPB_ERROR_UNTERMINATED_VARINT ↔
        get_v_uint64_t mem buf val = ⟨UPB_ERROR_UNTERMINATED_VARINT, buf, val⟩)) ∧
    (((skip_v_uint64_t mem buf).status = UPB_ERROR_UNTERMINATED_VARINT ↔
        ∀ i, i < 10 → (mem (buf + i)).val &&& 0x80 ≠ 0) ∧
      ((skip_v_uint64_t mem buf).status = UPB_ERROR_UNTERMINATED_VARINT ↔
        skip_v_uint64_t mem buf = ⟨UPB_ERROR_UNTERMINATED_VARINT, buf⟩)) ∧
    (((get_v_uint32_t mem buf val).status = UPB_ERROR_UNTERMINATED_VARINT ↔
        ∀ i, i < 5 → (mem (buf + i)).val &&& 0x80 ≠ 0) ∧
      ((get_v_uint32_t mem buf val).status = UPB_ERROR_UNTERMINATED_VARINT ↔
        get_v_uint32_t mem buf val = ⟨UPB_ERROR_UNTERMINATED_VARINT, buf, val⟩)) ∧
    get_v_uint64_t (memOfList (List.replicate 11 0xFF)) 0 val
      = ⟨UPB_ERROR_UNTERMINATED_VARINT, 0, val⟩ ∧
    skip_v_uint64_t (memOfList (List.replicate 11 0xFF)) 0
      = ⟨UPB_ERROR_UNTERMINATED_VARINT, 0⟩ ∧
    get_v_uint32_t (memOfList (List.replicate 11 0xFF)) 0 val
      = ⟨UPB_ERROR_UNTERMINATED_VARINT, 0, val⟩ :=
  ⟨get_v_uint64_t_unterminated_iff mem buf val, skip_v_uint64_t_unterminated_iff mem buf,
    get_v_uint32_t_unterminated_iff mem buf val,
    get_v_uint64_t_all_cont _ 0 val (by decide), skip_v_uint64_t_all_cont _ 0 (by decide),
    get_v_uint32_t_all_cont _ 0 val (by decide)⟩

/-! ## Fixed-width readers -/

theorem SHL_byte (b : Fin 256) (s : Nat) (hs : s ≤ 24) : SHL b.val s = b.val * 2^s := by
  unfold SHL
  rw [Nat.shiftLeft_eq]
  apply Nat.mod_eq_of_lt
  have hb := b.isLt
  calc b.val * 2^s ≤ 255 * 2^s := Nat.mul_le_mul_right _ (by omega)
    _ ≤ 255 * 2^24 := Nat.mul_le_mul_left _ (Nat.pow_le_pow_right (by norm_num) hs)
    _ < 2^32 := by norm_num

theorem get_f_uint32_t_spec (mem : Mem) (buf val : Nat) :
    get_f_uint32_t mem buf val = ⟨UPB_STATUS_OK, buf + 4,
      (mem buf).val + (mem (buf + 1)).val * 2^8 + (mem (buf + 2)).val * 2^16
        + (mem (buf + 3)).val * 2^24⟩ := by
  have h0 := (mem buf).isLt
  have h1 := (mem (buf + 1)).isLt
  have h2 := (mem (buf + 2)).isLt
  unfold get_f_uint32_t
  simp only [Nat.add_zero]
  rw [SHL_byte _ 0 (by omega), SHL_byte _ 8 (by omega), SHL_byte _ 16 (by omega),
    SHL_byte _ 24 (by omega)]
  rw [or_mul _ _ 8 (by omega), or_mul _ _ 16 (by omega), or_mul _ _ 24 (by omega)]
  simp

/-- C4: the portable branch of `get_f_uint32_t` returns OK, stores
`b0 + b1*2^8 + b2*2^16 + b3*2^24` for the four bytes at the cursor and
advances the cursor by 4 (so `[0x01,0x02,0x03,0x04]` gives `0x04030201`);
`get_f_uint64_t` returns OK, stores the sum of `b_i * 2^(8i)` over the eight
bytes at the cursor and advances the cursor by 8. -/
theorem get_f_little_endian (mem : Mem) (buf val : Nat) :
    get_f_uint32_t mem buf val = ⟨UPB_STATUS_OK, buf + 4,
      (mem buf).val + (mem (buf + 1)).val * 2^8 + (mem (buf + 2)).val * 2^16
        + (mem (buf + 3)).val * 2^24⟩ ∧
    get_f_uint64_t mem buf val = ⟨UPB_STATUS_OK, buf + 8,
      (mem buf).val + (mem (buf + 1)).val * 2^8 + (mem (buf + 2)).val * 2^16
        + (mem (buf + 3)).val * 2^24 + (mem (buf + 4)).val * 2^32
        + (mem (buf + 5)).val * 2^40 + (mem (buf + 6)).val * 2^48
        + (mem (buf + 7)).val * 2^56⟩ ∧
    get_f_uint32_t (memOfList [0x01, 0x02, 0x03, 0x04]) 0 val
      = ⟨UPB_STATUS_OK, 4, 0x04030201⟩ := by
  refine ⟨get_f_uint32_t_spec mem buf val, ?_, ?_⟩
  · have h0 := (mem buf).isLt
    have h1 := (mem (buf + 1)).isLt
    have h2 := (mem (buf + 2)).isLt
    have h3 := (mem (buf + 3)).isLt
    have h4 := (mem (buf + 4)).isLt
    have h5 := (mem (buf + 5)).isLt
    have h6 := (mem (buf + 6)).isLt
    have h7 := (mem (buf + 7)).isLt
    unfold get_f_uint64_t
    simp only [get_f_uint32_t_spec, Nat.add_assoc, Nat.reduceAdd]
    rw [Nat.shiftLeft_eq, Nat.mod_eq_of_lt (by omega), or_mul _ _ 32 (by omega)]
    simp only [get_result.mk.injEq, true_and]
    omega
  · rw [get_f_uint32_t_spec]
    decide

/-! ## Tags -/

/-- C2 (failing input): the minimal encoding of the tag of field number `2^25`
with wire type `UPB_WIRE_TYPE_64BIT` is the five bytes
`81 80 80 80 01`; `upb_parse_tag` returns OK and advances by 5, but yields
wire type `0` instead of `1`: the fifth byte overwrites the accumulated low
28 bits. -/
theorem upb_parse_tag_five_byte_tag :
    2^25 ≤ 2^29 - 1 ∧
    encode_varint (encode_tag (2^25) UPB_WIRE_TYPE_64BIT) = [0x81, 0x80, 0x80, 0x80, 0x01] ∧
    upb_parse_tag (memOfList [0x81, 0x80, 0x80, 0x80, 0x01]) 0 ⟨0, 0⟩
      = ⟨UPB_STATUS_OK, 5, ⟨2^25, UPB_WIRE_TYPE_VARINT⟩⟩ := by
  decide

/-! ## Wire values -/

theorem varint_sum_lt (mem : Mem) : ∀ (k buf : Nat), varint_sum mem buf k < 128 ^ (k + 1) := by
  intro k
  induction k with
  | zero => intro buf; simp only [varint_sum]; omega
  | succ k ih =>
    intro buf
    have := ih (buf + 1)
    simp only [varint_sum]
    rw [pow_succ]
    omega

/-- A successful `get_v_uint32_t` consumed between one and five bytes and
stored a value below `2^32`. -/
theorem get_v_uint32_t_ok_bounds (mem : Mem) (buf val : Nat)
    (hok : (get_v_uint32_t mem buf val).status = UPB_STATUS_OK) :
    buf < (get_v_uint32_t mem buf val).buf ∧ (get_v_uint32_t mem buf val).buf ≤ buf + 5 ∧
    (get_v_uint32_t mem buf val).val < 2^32 := by
  by_cases h : ∀ i, i < 5 → 128 ≤ (mem (buf + i)).val
  · rw [get_v_uint32_t_all_cont mem buf val h] at hok
    simp at hok
  · obtain ⟨k, hk, hcont, hterm⟩ := exists_first_terminator mem buf 5 h
    rw [get_v_uint32_t_spec mem buf val k (by omega) hcont hterm]
    refine ⟨by simp only; omega, by simp only; omega, ?_⟩
    simp only
    split
    · have := varint_sum_lt mem k buf
      have h4 : 128 ^ (k + 1) ≤ 128 ^ 4 := Nat.pow_le_pow_right (by norm_num) (by omega)
      omega
    · exact Nat.mod_lt _ (by norm_num)

/-- The result of `get_v_uint32_t` does not depend on the previous content of
`*val` when it succeeds. -/
theorem get_v_uint32_t_status_val (mem : Mem) (buf val val' : Nat) :
    (get_v_uint32_t mem buf val).status = (get_v_uint32_t mem buf val').status ∧
    (get_v_uint32_t mem buf val).buf = (get_v_uint32_t mem buf val').buf := by
  by_cases h : ∀ i, i < 5 → 128 ≤ (mem (buf + i)).val
  · rw [get_v_uint32_t_all_cont mem buf val h, get_v_uint32_t_all_cont mem buf val' h]
    exact ⟨rfl, rfl⟩
  · obtain ⟨k, hk, hcont, hterm⟩ := exists_first_terminator mem buf 5 h
    rw [get_v_uint32_t_spec mem buf val k (by omega) hcont hterm,
      get_v_uint32_t_spec mem buf val' k (by omega) hcont hterm]
    exact ⟨rfl, rfl⟩

/-- C6 (failing input): with incoming offset `0` and the one-byte length
prefix `03`, `upb_parse_wire_value` stores the length 3 but leaves the offset
at `5`, not at `0 + 1 + 3 = 4`: the computed `new_offset` is added to the
offset instead of replacing it. -/
theorem upb_parse_wire_value_delimited_offset :
    get_v_uint32_t (memOfList [0x03]) 0 0 = ⟨UPB_STATUS_OK, 1, 3⟩ ∧
    upb_parse_wire_value 64 (memOfList [0x03]) 0 0 UPB_WIRE_TYPE_DELIMITED (.varint 0)
      = ⟨UPB_STATUS_OK, 5, ._32bit 3⟩ := by
  decide

/-- C7 (counterexample): with a 64-bit `size_t`, incoming offset `2^64 - 1`
and the length prefix `00` (one byte, length 0), the exact sum
`offset + 1 + 0` is `2^64`, beyond the largest `size_t`; yet both
`upb_parse_wire_value` and `upb_skip_wire_value` return `UPB_STATUS_OK`, with
the offset wrapped to `0`. -/
theorem delimited_overflow_missed :
    get_v_uint32_t (memOfList [0x00]) 0 0 = ⟨UPB_STATUS_OK, 1, 0⟩ ∧
    (2^64 - 1) + 1 + 0 > 2^64 - 1 ∧
    upb_parse_wire_value 64 (memOfList [0x00]) 0 (2^64 - 1) UPB_WIRE_TYPE_DELIMITED (.varint 0)
      = ⟨UPB_STATUS_OK, 0, ._32bit 0⟩ ∧
    upb_skip_wire_value 64 (memOfList [0x00]) 0 (2^64 - 1) UPB_WIRE_TYPE_DELIMITED
      = ⟨UPB_STATUS_OK, 0⟩ := by
  decide

/-- C7 (amended): for `upb_parse_wire_value` and `upb_skip_wire_value` with
wire type DELIMITED and a `size_t` of at least 32 bits, whenever the length
prefix decodes successfully, the offset just after the length prefix is still
representable, and the exact sum of that offset and the decoded length
exceeds the largest `size_t`, the function returns `UPB_ERROR_OVERFLOW`. -/
theorem delimited_overflow_detected (w : Nat) (mem : Mem) (buf offset : Nat)
    (wv : upb_wire_value) (hw : 32 ≤ w)
    (hok : (get_v_uint32_t mem buf 0).status = UPB_STATUS_OK)
    (hpre : offset + ((get_v_uint32_t mem buf 0).buf - buf) < 2^w)
    (hsum : 2^w ≤ offset + ((get_v_uint32_t mem buf 0).buf - buf)
      + (get_v_uint32_t mem buf 0).val) :
    (upb_parse_wire_value w mem buf offset UPB_WIRE_TYPE_DELIMITED wv).status
      = UPB_ERROR_OVERFLOW ∧
    (upb_skip_wire_value w mem buf offset UPB_WIRE_TYPE_DELIMITED).status
      = UPB_ERROR_OVERFLOW := by
  obtain ⟨_, _, hval⟩ := get_v_uint32_t_ok_bounds mem buf 0 hok
  have h32 : (2:Nat)^32 ≤ 2^w := Nat.pow_le_pow_right (by norm_num) hw
  have e1 : (offset + ((get_v_uint32_t mem buf 0).buf - buf)) % 2^w
      = offset + ((get_v_uint32_t mem buf 0).buf - buf) := Nat.mod_eq_of_lt hpre
  have e2 : (offset + ((get_v_uint32_t mem buf 0).buf - buf) + (get_v_uint32_t mem buf 0).val) % 2^w
      < offset + ((get_v_uint32_t mem buf 0).buf - buf) := by
    rw [Nat.mod_eq_sub_mod hsum, Nat.mod_eq_of_lt (by omega)]
    omega
  constructor
  · simp [upb_parse_wire_value, UPB_WIRE_TYPE_DELIMITED, UPB_WIRE_TYPE_VARINT,
      UPB_WIRE_TYPE_64BIT, UPB_WIRE_TYPE_32BIT, hok, e1, e2]
  · simp [upb_skip_wire_value, UPB_WIRE_TYPE_DELIMITED, UPB_WIRE_TYPE_VARINT,
      UPB_WIRE_TYPE_64BIT, UPB_WIRE_TYPE_32BIT, hok, e1, e2]

/-- Witness for the amended C7: offset `2^64 - 2`, length prefix `05`. -/
theorem delimited_overflow_detected_witness :
    (upb_parse_wire_value 64 (memOfList [0x05]) 0 (2^64 - 2) UPB_WIRE_TYPE_DELIMITED
      (.varint 0)).status = UPB_ERROR_OVERFLOW ∧
    (upb_skip_wire_value 64 (memOfList [0x05]) 0 (2^64 - 2) UPB_WIRE_TYPE_DELIMITED).status
      = UPB_ERROR_OVERFLOW :=
  delimited_overflow_detected 64 (memOfList [0x05]) 0 (2^64 - 2) (.varint 0) (by decide)
    (by decide) (by decide) (by decide)

theorem skip_v_uint64_t_eq_get (mem : Mem) (buf val : Nat) :
    (skip_v_uint64_t mem buf).status = (get_v_uint64_t mem buf val).status ∧
    (skip_v_uint64_t mem buf).buf = (get_v_uint64_t mem buf val).buf := by
  by_cases h : ∀ i, i < 10 → 128 ≤ (mem (buf + i)).val
  · rw [get_v_uint64_t_all_cont mem buf val h, skip_v_uint64_t_all_cont mem buf h]
    exact ⟨rfl, rfl⟩
  · obtain ⟨k, hk, hcont, hterm⟩ := exists_first_terminator mem buf 10 h
    rw [get_v_uint64_t_spec mem buf val k (by omega) hcont hterm,
      skip_v_uint64_t_spec mem buf k (by omega) hcont hterm]
    exact ⟨rfl, rfl⟩

/-- C8: for every buffer, incoming offset and wire type,
`upb_skip_wire_value` returns the same status as `upb_parse_wire_value` and
leaves the same offset. -/
theorem upb_skip_mirrors_parse (w : Nat) (mem : Mem) (buf offset wt : Nat)
    (wv : upb_wire_value) :
    (upb_skip_wire_value w mem buf offset wt).status
      = (upb_parse_wire_value w mem buf offset wt wv).status ∧
    (upb_skip_wire_value w mem buf offset wt).offset
      = (upb_parse_wire_value w mem buf offset wt wv).offset := by
  obtain ⟨hs, hb⟩ := skip_v_uint64_t_eq_get mem buf 0
  by_cases h0 : wt = UPB_WIRE_TYPE_VARINT
  · subst h0
    simp only [upb_skip_wire_value, upb_parse_wire_value, if_true, hs, hb]
    split <;> exact ⟨rfl, rfl⟩
  by_cases h1 : wt = UPB_WIRE_TYPE_64BIT
  · subst h1
    simp [upb_skip_wire_value, upb_parse_wire_value, UPB_WIRE_TYPE_VARINT, UPB_WIRE_TYPE_64BIT,
      skip_f_uint64_t, get_f_uint64_t, get_f_uint32_t, Nat.add_assoc]
  by_cases h2 : wt = UPB_WIRE_TYPE_32BIT
  · subst h2
    simp [upb_skip_wire_value, upb_parse_wire_value, UPB_WIRE_TYPE_VARINT, UPB_WIRE_TYPE_64BIT,
      UPB_WIRE_TYPE_32BIT, skip_f_uint32_t, get_f_uint32_t]
  by_cases h3 : wt = UPB_WIRE_TYPE_DELIMITED
  · subst h3
    simp only [upb_skip_wire_value, upb_parse_wire_value, UPB_WIRE_TYPE_VARINT,
      UPB_WIRE_TYPE_64BIT, UPB_WIRE_TYPE_32BIT, UPB_WIRE_TYPE_DELIMITED, if_true, if_false,
      OfNat.ofNat_ne_zero, OfNat.ofNat_ne_one, Nat.reduceEqDiff]
    split
    · exact ⟨rfl, rfl⟩
    · split <;> exact ⟨rfl, rfl⟩
  · simp only [upb_skip_wire_value, upb_parse_wire_value, h0, h1, h2, h3, if_false]
    exact ⟨trivial, trivial⟩

/-! ## Parse driver -/

/-- C9 (failing input): the stack is at capacity (`top = limit`), so
`push_stack_frame` returns `UPB_ERROR_STACK_OVERFLOW`; yet on a one-byte
chunk holding a START_GROUP tag resolved to GROUP, and on a chunk whose
DELIMITED tag is resolved to MESSAGE (length prefix `00`), `upb_parse`
returns `UPB_STATUS_OK` (for every fuel of at least 2), with `top` left
beyond `limit`: the status of `push_stack_frame` is dropped. -/
theorem upb_parse_ignores_stack_overflow (n : Nat) :
    (root_state 1 0).top = (root_state 1 0).limit ∧
    (push_stack_frame (root_state 1 0) 0 7).1 = UPB_ERROR_STACK_OVERFLOW ∧
    (upb_parse 64 (fun _ _ => (TYPE_GROUP, 7)) (memOfList [0x0B]) (.uint32 0) (n + 2)
        (root_state 1 0) 0 1 0).map
      (fun r => (r.status, r.s.top, r.s.offset, r.s.trace, r.read))
      = some (UPB_STATUS_OK, 1, 1, [upb_event.tag_cb ⟨1, UPB_WIRE_TYPE_START_GROUP⟩], 1) ∧
    (upb_parse 64 (fun _ _ => (TYPE_MESSAGE, 7)) (memOfList [0x0A, 0x00]) (.uint32 0) (n + 2)
        (root_state 1 0) 0 1 0).map
      (fun r => (r.status, r.s.top, r.s.offset, r.s.trace, r.read))
      = some (UPB_STATUS_OK, 1, 1, [upb_event.tag_cb ⟨1, UPB_WIRE_TYPE_DELIMITED⟩], 1) := by
  refine ⟨rfl, ?_, ?_, ?_⟩
  · rfl
  · rfl
  · rfl
theorem pop_loop_none_due (fuel : Nat) (s : upb_parse_state) (h : s.offset < s.stack s.top) :
    pop_loop (fuel + 1) s = some s := by
  simp only [pop_loop, ge_iff_le, Nat.not_le.mpr h, if_false]

theorem packed_loop_inactive (fuel : Nat) (s : upb_parse_state)
    (h : ¬ s.packed_end_offset > s.offset) : packed_loop (fuel + 1) s = some s := by
  simp only [packed_loop, h, if_false]

/-- C10 (counterexample): with a 64-bit `size_t`, the state `near_top_state`
(offset `2^64 - 2`, not done, no packed tracking, top frame closing at the
nonzero `2^64 - 1`, beyond the offset) and the chunk `0C 00` of length 2,
whose next tag is the END_GROUP tag of field 1: the loop bound
`offset + len` wraps to `0`, the loop is not entered, and `upb_parse` returns
`UPB_STATUS_OK` without reading the tag. -/
theorem spurious_end_group_not_reached :
    near_top_state.done = false ∧
    ¬ near_top_state.packed_end_offset > near_top_state.offset ∧
    near_top_state.stack near_top_state.top ≠ 0 ∧
    near_top_state.offset < near_top_state.stack near_top_state.top ∧
    upb_parse_tag (memOfList [0x0C, 0x00]) 0 ⟨0, 0⟩
      = ⟨UPB_STATUS_OK, 1, ⟨1, UPB_WIRE_TYPE_END_GROUP⟩⟩ ∧
    observe (upb_parse 64 (only_field 1 TYPE_INT32 7) (memOfList [0x0C, 0x00]) (.uint32 0) 3
        near_top_state 0 2 0)
      = some (UPB_STATUS_OK, 0, 2^64 - 2, [], 0) := by
  decide

/-- C10 (amended): for every parse state that is not done, has no packed
tracking active and whose top frame has a nonzero `end_offset` greater than
the current offset, if the driver loop is entered, that is the loop bound
`(offset + len) mod 2^w` lies beyond the current offset (the chunk is
non-empty and `offset + len` does not wrap), and the next tag in the buffer
has wire type END_GROUP, then `upb_parse` returns
`UPB_ERROR_SPURIOUS_END_GROUP`; the state it leaves differs from the incoming
one only in the offset, advanced past the tag: no frame is popped and no
callback (resolver, sub-message start or end, value) is invoked, and `*read`
is not written. -/
theorem spurious_end_group_rejected (w : Nat) (tag_cb : upb_parse_state → upb_tag → Nat × Nat)
    (mem : Mem) (v0 : upb_value) (fuel : Nat) (s : upb_parse_state) (buf len read : Nat)
    (hdone : s.done = false)
    (hpacked : ¬ s.packed_end_offset > s.offset)
    (hgt : s.offset < s.stack s.top)
    (hloop : s.offset < (s.offset + len) % 2^w)
    (hst : (upb_parse_tag mem buf ⟨0, 0⟩).status = UPB_STATUS_OK)
    (hwt : (upb_parse_tag mem buf ⟨0, 0⟩).tag.wire_type = UPB_WIRE_TYPE_END_GROUP) :
    upb_parse w tag_cb mem v0 (fuel + 1) s buf len read
      = some ⟨UPB_ERROR_SPURIOUS_END_GROUP,
          { s with offset := (s.offset + ((upb_parse_tag mem buf ⟨0, 0⟩).buf - buf)) % 2^w },
          read⟩ := by
  have hnz : s.stack s.top ≠ 0 := by omega
  have hcond : s.done = false ∧ s.offset < (s.offset + len) % 2^w := ⟨hdone, hloop⟩
  unfold upb_parse
  simp only [upb_parse_loop, hcond, not_true_eq_false, and_self, if_false,
    pop_loop_none_due fuel s hgt, packed_loop_inactive fuel s hpacked, hst, hwt, ne_eq,
    not_true_eq_false, if_true, hnz, not_false_eq_true]
  simp

/-- Witness for the amended C10: a top-level buffer holding only the
END_GROUP tag of field 1 (`0C`), parsed under a root frame that closes at
offset 1. -/
theorem spurious_end_group_rejected_witness :
    upb_parse 64 (fun _ _ => (TYPE_INT32, 0)) (memOfList [0x0C]) (.uint32 0) (0 + 1)
        (root_state 1 4) 0 1 0
      = some ⟨UPB_ERROR_SPURIOUS_END_GROUP,
          { root_state 1 4 with
            offset := ((root_state 1 4).offset
              + ((upb_parse_tag (memOfList [0x0C]) 0 ⟨0, 0⟩).buf - 0)) % 2^64 },
          0⟩ :=
  spurious_end_group_rejected 64 (fun _ _ => (TYPE_INT32, 0)) (memOfList [0x0C]) (.uint32 0) 0
    (root_state 1 4) 0 1 0 (by decide) (by decide) (by decide) (by decide) (by decide)
    (by decide)

/-! ## Supplementary facts on tags and delimited values -/

/-- What does hold of `upb_parse_tag`: tags whose integer is below `2^28`
(field numbers below `2^25`, at most four bytes) are decoded exactly. -/
theorem upb_parse_tag_roundtrip_small (field_number wire_type : Nat) (mem : Mem) (buf : Nat)
    (tag : upb_tag) (hf : field_number < 2^25) (hwt : wire_type < 8)
    (hmem : ∀ i, i < (encode_varint (encode_tag field_number wire_type)).length →
      mem (buf + i) = (encode_varint (encode_tag field_number wire_type)).getD i 0) :
    upb_parse_tag mem buf tag
      = ⟨UPB_STATUS_OK, buf + (encode_varint (encode_tag field_number wire_type)).length,
          ⟨field_number, wire_type⟩⟩ := by
  have htag : encode_tag field_number wire_type = field_number * 8 + wire_type := by
    unfold encode_tag
    rw [Nat.shiftLeft_eq, Nat.mul_comm, Nat.add_comm]
    exact (Nat.mul_add_lt_is_or (i := 3) hwt field_number).symm.trans (by ring)
  rw [htag] at hmem ⊢
  obtain ⟨k, hlen, hk, hcont, hterm, hsum, hub, hlb⟩ :=
    encode_varint_fuel_props mem 9 (field_number * 8 + wire_type) buf (by norm_num; omega) hmem
  have hk3 : k ≤ 3 := by
    by_contra hgt
    rcases hlb with h | h
    · omega
    · have : 128 ^ 4 ≤ 128 ^ k := Nat.pow_le_pow_right (by norm_num) (by omega)
      omega
  unfold encode_varint
  rw [hlen]
  unfold upb_parse_tag
  rw [get_v_uint32_t_spec mem buf 0 k (by omega) hcont hterm]
  have e1 : (field_number * 8 + wire_type) &&& 0x07 = wire_type := by
    have := Nat.and_pow_two_sub_one_eq_mod (field_number * 8 + wire_type) 3
    simp only [Nat.reducePow, Nat.add_one_sub_one] at this
    rw [this]; omega
  have e2 : (field_number * 8 + wire_type) >>> 3 = field_number := by
    rw [Nat.shiftRight_eq_div_pow]; omega
  simp [hsum, show k < 4 by omega, e1, e2, Nat.add_assoc]

/-- What `upb_parse_wire_value` does leave for DELIMITED when the length
prefix (`n` bytes, decoding to `L`) is read and `o + n + L` is representable:
status OK, the length stored, and the offset `2 * (o + n) + L` modulo `2^w`. -/
theorem upb_parse_wire_value_delimited_general (w : Nat) (mem : Mem) (buf offset : Nat)
    (wv : upb_wire_value)
    (hok : (get_v_uint32_t mem buf 0).status = UPB_STATUS_OK)
    (hrep : offset + ((get_v_uint32_t mem buf 0).buf - buf) + (get_v_uint32_t mem buf 0).val
      < 2^w) :
    upb_parse_wire_value w mem buf offset UPB_WIRE_TYPE_DELIMITED wv
      = ⟨UPB_STATUS_OK,
          (2 * (offset + ((get_v_uint32_t mem buf 0).buf - buf))
            + (get_v_uint32_t mem buf 0).val) % 2^w,
          ._32bit (get_v_uint32_t mem buf 0).val⟩ := by
  have e1 : (offset + ((get_v_uint32_t mem buf 0).buf - buf)) % 2^w
      = offset + ((get_v_uint32_t mem buf 0).buf - buf) := Nat.mod_eq_of_lt (by omega)
  have e2 : (offset + ((get_v_uint32_t mem buf 0).buf - buf) + (get_v_uint32_t mem buf 0).val) % 2^w
      = offset + ((get_v_uint32_t mem buf 0).buf - buf) + (get_v_uint32_t mem buf 0).val :=
    Nat.mod_eq_of_lt hrep
  simp only [upb_parse_wire_value, UPB_WIRE_TYPE_DELIMITED, UPB_WIRE_TYPE_VARINT,
    UPB_WIRE_TYPE_64BIT, UPB_WIRE_TYPE_32BIT, hok, e1, e2, OfNat.ofNat_ne_zero,
    OfNat.ofNat_ne_one, Nat.reduceEqDiff, if_false, ne_eq, not_true_eq_false]
  rw [if_pos trivial, if_neg (by omega)]
  congr 2
  omega

/-! ## Parse driver: sub-messages, packed fields, values, groups -/

/-- C11 (failing input): `N = 1`, the buffer `0A 00` (one MESSAGE field with
an empty payload), a fresh state whose root frame closes at offset 2, and a
resolver answering MESSAGE for every tag.  `upb_parse` returns OK (for every
fuel of at least 3) but invokes `submsg_start_cb` twice and `submsg_end_cb`
once, and leaves `top` one frame above the root: the length prefix `00` is
not consumed and is read again as a tag. -/
theorem upb_parse_nested_one_level (n : Nat) :
    observe (upb_parse 64 (fun _ _ => (TYPE_MESSAGE, 7)) (memOfList [0x0A, 0x00]) (.uint32 0)
        (n + 3) (root_state 2 8) 0 2 0)
      = some (UPB_STATUS_OK, 1, 2,
          [upb_event.tag_cb ⟨1, UPB_WIRE_TYPE_DELIMITED⟩, upb_event.submsg_start_cb 7,
           upb_event.submsg_end_cb,
           upb_event.tag_cb ⟨0, UPB_WIRE_TYPE_VARINT⟩, upb_event.submsg_start_cb 7], 2) := by
  rfl

theorem packed_loop_diverges (s : upb_parse_state) (h : s.packed_end_offset > s.offset) :
    ∀ fuel, packed_loop fuel s = none := by
  intro fuel
  induction fuel with
  | zero => rfl
  | succ fuel ih => simp only [packed_loop, h, if_true, ih]

/-- Once packed tracking is active at the head of an iteration (and the top
frame is still open), `upb_parse_loop` returns for no amount of fuel. -/
theorem upb_parse_loop_packed_diverges (w : Nat) (tag_cb : upb_parse_state → upb_tag → Nat × Nat)
    (mem : Mem) (v0 : upb_value) (end_offset : Nat) (s : upb_parse_state) (buf : Nat)
    (hdone : s.done = false) (hoff : s.offset < end_offset)
    (htop : s.offset < s.stack s.top) (hpacked : s.packed_end_offset > s.offset) :
    ∀ fuel, upb_parse_loop w tag_cb mem v0 end_offset fuel s buf = none := by
  intro fuel
  cases fuel with
  | zero => rfl
  | succ fuel =>
    simp only [upb_parse_loop, hdone, hoff, and_self, not_true_eq_false, if_false,
      pop_loop_none_due fuel s htop, packed_loop_diverges s hpacked]

/-- C12 (failing input): `K = 1`, the buffer `0A 01 05` (field 1, DELIMITED,
one-byte payload holding the varint 5), the resolver mapping field 1 to
INT32, root frame closing at offset 3.  `upb_parse` returns for no amount of
fuel: after the tag, packed tracking is started and the next iteration enters
the packed loop, whose body is empty. -/
theorem upb_parse_packed_diverges (fuel : Nat) :
    upb_parse 64 (only_field 1 TYPE_INT32 7) (memOfList [0x0A, 0x01, 0x05]) (.uint32 0) fuel
      (root_state 3 8) 0 3 0 = none := by
  have hloop : upb_parse_loop 64 (only_field 1 TYPE_INT32 7) (memOfList [0x0A, 0x01, 0x05])
      (.uint32 0) 3 fuel (root_state 3 8) 0 = none := by
    cases fuel with
    | zero => rfl
    | succ fuel =>
      have step : upb_parse_loop 64 (only_field 1 TYPE_INT32 7) (memOfList [0x0A, 0x01, 0x05])
          (.uint32 0) 3 (fuel + 1) (root_state 3 8) 0
          = upb_parse_loop 64 (only_field 1 TYPE_INT32 7) (memOfList [0x0A, 0x01, 0x05])
              (.uint32 0) 3 fuel
              { root_state 3 8 with
                offset := 1, packed_type := TYPE_INT32, packed_end_offset := 2,
                trace := [upb_event.tag_cb ⟨1, UPB_WIRE_TYPE_DELIMITED⟩] } 1 := rfl
      rw [step]
      exact upb_parse_loop_packed_diverges 64 _ _ _ 3 _ 1 rfl (by decide) (by decide)
        (by decide) fuel
  show (match upb_parse_loop 64 (only_field 1 TYPE_INT32 7) (memOfList [0x0A, 0x01, 0x05])
      (.uint32 0) ((root_state 3 8).offset + 3) fuel (root_state 3 8) 0 with
    | none => none
    | some (status, s) => _) = none
  have e : (root_state 3 8).offset + 3 = 3 := rfl
  rw [e, hloop]

/-- C13 (failing input): the buffer `08 05 07` (field 1, VARINT, value 5,
then a further byte), the resolver mapping field 1 to INT32.  A single
`upb_parse_value` call right after the tag returns 5, but `upb_parse` passes
7 to `value_cb`: it calls `upb_parse_value` a second time, on the bytes after
the value, and emits that result. -/
theorem upb_parse_emits_second_value (n : Nat) :
    upb_parse_value (memOfList [0x08, 0x05, 0x07]) 1 TYPE_INT32 (.uint32 0)
      = ⟨UPB_STATUS_OK, 2, .int32 5⟩ ∧
    observe (upb_parse 64 (only_field 1 TYPE_INT32 7) (memOfList [0x08, 0x05, 0x07]) (.uint32 0)
        (n + 3) (root_state 3 8) 0 3 0)
      = some (UPB_STATUS_OK, 0, 6,
          [upb_event.tag_cb ⟨1, UPB_WIRE_TYPE_VARINT⟩, upb_event.value_cb (.int32 7) 3 7,
           upb_event.tag_cb ⟨0, UPB_WIRE_TYPE_32BIT⟩], 6) := by
  exact ⟨by decide, rfl⟩

/-- C14 (failing input): the buffer `0A 02 68 69` (field 1, DELIMITED, length
2, payload "hi"), the resolver mapping field 1 to STRING.  `value_cb` is
invoked once with length 2 and the pointer 2 to the first payload byte, but
the position then stands at 1 (just after the tag), not at `1 + 1 + 2 = 4`:
the next tag is decoded from the length prefix `02` (field 0, DELIMITED), and
skipping it takes the payload byte `68` as a length, leaving the offset at
110. -/
theorem upb_parse_string_not_skipped (n : Nat) :
    observe (upb_parse 64 (only_field 1 TYPE_STRING 7) (memOfList [0x0A, 0x02, 0x68, 0x69])
        (.uint32 0) (n + 3) (root_state 4 8) 0 4 0)
      = some (UPB_STATUS_OK, 0, 110,
          [upb_event.tag_cb ⟨1, UPB_WIRE_TYPE_DELIMITED⟩, upb_event.value_cb (.uint32 2) 2 7,
           upb_event.tag_cb ⟨0, UPB_WIRE_TYPE_DELIMITED⟩], 110) := by
  rfl

/-- C15 (failing input): the buffer `0B 0C` (START_GROUP and END_GROUP of
field 1), the resolver mapping field 1 to GROUP, a root frame closing at
offset 2.  The group frame, pushed with `end_offset = 0`, is popped by the
lazy-close loop at the top of the next iteration (`offset >= 0` always
holds), so the END_GROUP tag meets the root frame and `upb_parse` returns
`UPB_ERROR_SPURIOUS_END_GROUP` instead of `UPB_STATUS_OK`. -/
theorem upb_parse_group_closed_early (n : Nat) :
    (pop_loop (n + 2) { (push_stack_frame (root_state 2 8) 0 7).2 with offset := 1 }).map
        (fun s => s.top) = some 0 ∧
    observe (upb_parse 64 (only_field 1 TYPE_GROUP 7) (memOfList [0x0B, 0x0C]) (.uint32 0)
        (n + 3) (root_state 2 8) 0 2 0)
      = some (UPB_ERROR_SPURIOUS_END_GROUP, 0, 2,
          [upb_event.tag_cb ⟨1, UPB_WIRE_TYPE_START_GROUP⟩, upb_event.submsg_start_cb 7,
           upb_event.submsg_end_cb], 0) := by
  exact ⟨rfl, rfl⟩

/-- C17 (failing input): a state with `top = limit`.  `push_stack_frame`
returns `UPB_ERROR_STACK_OVERFLOW` and leaves `top = limit + 1`; and
`upb_parse` on the chunk `0B 0B` (two START_GROUP tags resolved to GROUP)
returns OK with `top = limit + 2`. -/
theorem push_stack_frame_leaves_top_beyond_limit (n : Nat) :
    (root_state 2 0).top = (root_state 2 0).limit ∧
    (push_stack_frame (root_state 2 0) 0 7).1 = UPB_ERROR_STACK_OVERFLOW ∧
    (push_stack_frame (root_state 2 0) 0 7).2.top = (root_state 2 0).limit + 1 ∧
    observe (upb_parse 64 (only_field 1 TYPE_GROUP 7) (memOfList [0x0B, 0x0B]) (.uint32 0)
        (n + 3) (root_state 2 0) 0 2 0)
      = some (UPB_STATUS_OK, 2, 2,
          [upb_event.tag_cb ⟨1, UPB_WIRE_TYPE_START_GROUP⟩,
           upb_event.tag_cb ⟨1, UPB_WIRE_TYPE_START_GROUP⟩], 2) := by
  exact ⟨rfl, rfl, rfl, rfl⟩

/-- What does hold of the stack bound: a `push_stack_frame` that returns OK
leaves `top` at or below `limit`. -/
theorem push_stack_frame_ok_within_limit (s : upb_parse_state) (end_offset desc : Nat)
    (hok : (push_stack_frame s end_offset desc).1 = UPB_STATUS_OK) :
    (push_stack_frame s end_offset desc).2.top ≤ (push_stack_frame s end_offset desc).2.limit := by
  unfold push_stack_frame at hok ⊢
  by_cases h : s.top + 1 > s.limit
  · simp [h] at hok
  · simp only [h, if_false]
    omega

/-- C18 (failing input): the terminated five-byte varint `81 80 80 80 00`
encodes the value 1 (nonzero, below `2^32`), but `get_BOOL`, and
`upb_parse_value` with field type BOOL, return OK and store `false`: the
fifth byte overwrites the bits read from the first four. -/
theorem get_BOOL_five_byte_varint :
    varint_sum (memOfList [0x81, 0x80, 0x80, 0x80, 0x00]) 0 4 = 1 ∧
    get_BOOL (memOfList [0x81, 0x80, 0x80, 0x80, 0x00]) 0 (.uint32 0)
      = ⟨UPB_STATUS_OK, 5, ._bool false⟩ ∧
    upb_parse_value (memOfList [0x81, 0x80, 0x80, 0x80, 0x00]) 0 TYPE_BOOL (.uint32 0)
      = ⟨UPB_STATUS_OK, 5, ._bool false⟩ := by
  decide

/-- What does hold of `get_BOOL`: on a terminated varint of at most four
bytes it returns OK and stores `true` exactly when the encoded value is
nonzero. -/
theorem get_BOOL_short_varint (mem : Mem) (buf k : Nat) (d : upb_value) (hk : k ≤ 3)
    (hcont : ∀ i, i < k → 128 ≤ (mem (buf + i)).val)
    (hterm : (mem (buf + k)).val < 128) :
    get_BOOL mem buf d
      = ⟨UPB_STATUS_OK, buf + k + 1, ._bool (decide (varint_sum mem buf k ≠ 0))⟩ := by
  unfold get_BOOL GET
  rw [get_v_uint32_t_spec mem buf 0 k (by omega) hcont hterm]
  simp [wvtov_BOOL, show k < 4 by omega]

/-! ## Varint64 against the base-128 reference; tag range -/

theorem varint_sum_eq_sum (mem : Mem) :
    ∀ (k buf : Nat), varint_sum mem buf k
      = ∑ i in Finset.range (k + 1), ((mem (buf + i)).val &&& 0x7F) * 2 ^ (7 * i) := by
  intro k
  induction k with
  | zero => intro buf; simp [varint_sum, byte_and_7F]
  | succ k ih =>
    intro buf
    rw [Finset.sum_range_succ', varint_sum, ih (buf + 1), Finset.mul_sum]
    simp only [Nat.add_zero, Nat.mul_zero, pow_zero, Nat.mul_one, byte_and_7F]
    rw [Nat.add_comm]
    congr 1
    apply Finset.sum_congr rfl
    intro i _
    rw [Nat.add_assoc, Nat.add_comm 1 i, Nat.mul_add, pow_add]
    ring

/-- C19: for every byte sequence whose first byte with the continuation bit
clear is at index `k ≤ 9`, `get_v_uint64_t` returns OK, advances the cursor
by `k + 1` and stores the sum over `i ≤ k` of `(byte_i AND 0x7F) * 2^(7i)`,
reduced modulo `2^64`; `skip_v_uint64_t` returns OK and advances the cursor
by the same `k + 1`. -/
theorem varint64_decode_reference (mem : Mem) (buf val k : Nat) (hk : k ≤ 9)
    (hcont : ∀ i, i < k → (mem (buf + i)).val &&& 0x80 ≠ 0)
    (hterm : (mem (buf + k)).val &&& 0x80 = 0) :
    get_v_uint64_t mem buf val = ⟨UPB_STATUS_OK, buf + k + 1,
      (∑ i in Finset.range (k + 1), ((mem (buf + i)).val &&& 0x7F) * 2 ^ (7 * i)) % 2^64⟩ ∧
    skip_v_uint64_t mem buf = ⟨UPB_STATUS_OK, buf + k + 1⟩ := by
  have hc : ∀ i, i < k → 128 ≤ (mem (buf + i)).val := (cont_bit_iff mem buf k).mp hcont
  have ht : (mem (buf + k)).val < 128 := (byte_and_80 _).mp hterm
  rw [← varint_sum_eq_sum]
  exact ⟨get_v_uint64_t_spec mem buf val k hk hc ht, skip_v_uint64_t_spec mem buf k hk hc ht⟩

/-- Witness for C19: the non-canonical three-byte varint `AC 82 00`
(value 300). -/
theorem varint64_decode_reference_witness :
    get_v_uint64_t (memOfList [0xAC, 0x82, 0x00]) 0 0 = ⟨UPB_STATUS_OK, 0 + 2 + 1,
      (∑ i in Finset.range (2 + 1),
        ((memOfList [0xAC, 0x82, 0x00] (0 + i)).val &&& 0x7F) * 2 ^ (7 * i)) % 2^64⟩ ∧
    skip_v_uint64_t (memOfList [0xAC, 0x82, 0x00]) 0 = ⟨UPB_STATUS_OK, 0 + 2 + 1⟩ :=
  varint64_decode_reference (memOfList [0xAC, 0x82, 0x00]) 0 0 2 (by decide) (by decide)
    (by decide)

/-- An unsuccessful `get_v_uint32_t` leaves cursor and value as they were. -/
theorem get_v_uint32_t_error_unchanged (mem : Mem) (buf val : Nat)
    (herr : (get_v_uint32_t mem buf val).status ≠ UPB_STATUS_OK) :
    get_v_uint32_t mem buf val = ⟨UPB_ERROR_UNTERMINATED_VARINT, buf, val⟩ := by
  by_cases h : ∀ i, i < 5 → 128 ≤ (mem (buf + i)).val
  · exact get_v_uint32_t_all_cont mem buf val h
  · obtain ⟨k, hk, hcont, hterm⟩ := exists_first_terminator mem buf 5 h
    rw [get_v_uint32_t_spec mem buf val k (by omega) hcont hterm] at herr
    exact absurd rfl herr

/-- The value a successful `get_v_uint32_t` stores does not depend on the
previous content of `*val`. -/
theorem get_v_uint32_t_val_indep (mem : Mem) (buf val val' : Nat)
    (hok : (get_v_uint32_t mem buf val).status = UPB_STATUS_OK) :
    (get_v_uint32_t mem buf val).val = (get_v_uint32_t mem buf val').val := by
  by_cases h : ∀ i, i < 5 → 128 ≤ (mem (buf + i)).val
  · rw [get_v_uint32_t_all_cont mem buf val h] at hok
    simp at hok
  · obtain ⟨k, hk, hcont, hterm⟩ := exists_first_terminator mem buf 5 h
    rw [get_v_uint32_t_spec mem buf val k (by omega) hcont hterm,
      get_v_uint32_t_spec mem buf val' k (by omega) hcont hterm]

/-- C20: whenever `upb_parse_tag` returns OK, the wire type is in `0..7`, the
field number is at most `2^29 - 1`, and `field_number * 8 + wire_type` is the
32-bit value `get_v_uint32_t` decodes from the same bytes; whenever it
returns an error, the cursor and the tag are unchanged.  Both cases occur:
on `08` the tag (1, VARINT) is read, on five bytes `FF` the call fails. -/
theorem upb_parse_tag_in_range (mem : Mem) (buf val : Nat) (tag : upb_tag) :
    ((upb_parse_tag mem buf tag).status = UPB_STATUS_OK →
      (upb_parse_tag mem buf tag).tag.wire_type ≤ 7 ∧
      (upb_parse_tag mem buf tag).tag.field_number ≤ 2^29 - 1 ∧
      (upb_parse_tag mem buf tag).tag.field_number * 8 + (upb_parse_tag mem buf tag).tag.wire_type
        = (get_v_uint32_t mem buf val).val) ∧
    ((upb_parse_tag mem buf tag).status ≠ UPB_STATUS_OK →
      (upb_parse_tag mem buf tag).buf = buf ∧ (upb_parse_tag mem buf tag).tag = tag) ∧
    upb_parse_tag (memOfList [0x08]) 0 tag = ⟨UPB_STATUS_OK, 1, ⟨1, UPB_WIRE_TYPE_VARINT⟩⟩ ∧
    upb_parse_tag (memOfList [0xFF, 0xFF, 0xFF, 0xFF, 0xFF]) 0 tag
      = ⟨UPB_ERROR_UNTERMINATED_VARINT, 0, tag⟩ := by
  refine ⟨?_, ?_, by rfl, by rfl⟩
  · intro hok
    have hst : (get_v_uint32_t mem buf 0).status = UPB_STATUS_OK := by
      by_contra hne
      simp [upb_parse_tag, hne] at hok
    obtain ⟨_, _, hval⟩ := get_v_uint32_t_ok_bounds mem buf 0 hst
    have hv := get_v_uint32_t_val_indep mem buf 0 val hst
    have e1 : (get_v_uint32_t mem buf 0).val &&& 0x07 = (get_v_uint32_t mem buf 0).val % 8 := by
      have := Nat.and_pow_two_sub_one_eq_mod (get_v_uint32_t mem buf 0).val 3
      simpa using this
    have e2 : (get_v_uint32_t mem buf 0).val >>> 3 = (get_v_uint32_t mem buf 0).val / 8 := by
      rw [Nat.shiftRight_eq_div_pow]
    simp only [upb_parse_tag, hst, ne_eq, not_true_eq_false, if_false, e1, e2]
    omega
  · intro herr
    have hst : (get_v_uint32_t mem buf 0).status ≠ UPB_STATUS_OK := by
      intro hok
      simp [upb_parse_tag, hok] at herr
    have := get_v_uint32_t_error_unchanged mem buf 0 hst
    simp [upb_parse_tag, this]

/-! ## Offset monotonicity -/

theorem get_v_uint32_t_val_lt (mem : Mem) (buf val : Nat) (hv : val < 2^32) :
    (get_v_uint32_t mem buf val).val < 2^32 := by
  by_cases hok : (get_v_uint32_t mem buf val).status = UPB_STATUS_OK
  · exact (get_v_uint32_t_ok_bounds mem buf val hok).2.2
  · rw [get_v_uint32_t_error_unchanged mem buf val hok]
    exact hv

end Upb
